import Mathlib

/-!
Verification of the WreckSpace simulation core against its specification.

The JavaScript sources are shallowly embedded: JS `Map`s become association
lists keyed by entity id (`Table`), JS `Set`s become duplicate-free lists,
and JS numbers (IEEE doubles) are modelled as exact rationals `ℚ` — every
claim checked here is about exact arithmetic relations (clamps, thresholds,
counters), not about rounding behaviour.  Render-side collaborator state
(three.js matrices, projections) enters only through explicit oracle
function parameters, mirroring the spec's interface boundary.
-/

namespace WreckSpace

/-! ## Component tables

A JS `Map<number, T>` with its insertion-order iteration is embedded as an
association list.  `Map.get` is `Table.find`, `Map.delete` is
`Table.eraseKey`, `Map.set` is `Table.setKey` (replace in place, else
append) and iteration order is list order. -/

abbrev Table (α : Type) := List (Nat × α)

def Table.find {α : Type} : Table α → Nat → Option α
  | [], _ => none
  | (k, v) :: rest, key => if k = key then some v else Table.find rest key

def Table.eraseKey {α : Type} : Table α → Nat → Table α
  | [], _ => []
  | (k, v) :: rest, key =>
      if k = key then Table.eraseKey rest key
      else (k, v) :: Table.eraseKey rest key

def Table.setKey {α : Type} : Table α → Nat → α → Table α
  | [], key, v => [(key, v)]
  | (k, w) :: rest, key, v =>
      if k = key then (k, v) :: rest else (k, w) :: Table.setKey rest key v

def Table.keys {α : Type} (t : Table α) : List Nat :=
  t.map Prod.fst

theorem Table.find_eraseKey_self {α : Type} (t : Table α) (key : Nat) :
    (t.eraseKey key).find key = none := by
  induction t with
  | nil => rfl
  | cons p rest ih =>
      obtain ⟨k, v⟩ := p
      by_cases h : k = key
      · simpa [Table.eraseKey, h] using ih
      · simpa [Table.eraseKey, h, Table.find] using ih

theorem Table.find_eraseKey_ne {α : Type} (t : Table α) (key k : Nat) (h : k ≠ key) :
    (t.eraseKey key).find k = t.find k := by
  induction t with
  | nil => rfl
  | cons p rest ih =>
      obtain ⟨pk, pv⟩ := p
      by_cases hp : pk = key
      · have hpk : ¬ pk = k := fun hk => h (hk ▸ hp)
        simp only [Table.eraseKey, if_pos hp, Table.find, if_neg hpk]
        exact ih
      · simp only [Table.eraseKey, if_neg hp, Table.find]
        by_cases hk : pk = k
        · simp [hk]
        · simp only [if_neg hk]
          exact ih

theorem Table.eraseKey_idem {α : Type} (t : Table α) (key : Nat) :
    (t.eraseKey key).eraseKey key = t.eraseKey key := by
  induction t with
  | nil => rfl
  | cons p rest ih =>
      obtain ⟨k, v⟩ := p
      by_cases h : k = key
      · simpa [Table.eraseKey, h] using ih
      · simp only [Table.eraseKey, if_neg h]
        rw [ih]

theorem Table.not_mem_keys_eraseKey {α : Type} (t : Table α) (key : Nat) :
    key ∉ (t.eraseKey key).keys := by
  induction t with
  | nil => simp [Table.eraseKey, Table.keys]
  | cons p rest ih =>
      obtain ⟨k, v⟩ := p
      by_cases h : k = key
      · simpa [Table.eraseKey, h] using ih
      · simp only [Table.eraseKey, if_neg h, Table.keys, List.map_cons, List.mem_cons,
          not_or]
        exact ⟨fun hk => h hk.symm, by simpa [Table.keys] using ih⟩

theorem Table.find_setKey_self {α : Type} (t : Table α) (key : Nat) (v : α) :
    (t.setKey key v).find key = some v := by
  induction t with
  | nil => simp [Table.setKey, Table.find]
  | cons p rest ih =>
      obtain ⟨pk, pv⟩ := p
      by_cases h : pk = key
      · simp [Table.setKey, h, Table.find]
      · simp only [Table.setKey, if_neg h, Table.find, if_neg h]
        exact ih

theorem Table.find_setKey_ne {α : Type} (t : Table α) (key k : Nat) (v : α) (h : k ≠ key) :
    (t.setKey key v).find k = t.find k := by
  induction t with
  | nil =>
      have hk : ¬ key = k := fun hk => h hk.symm
      simp [Table.setKey, Table.find, hk]
  | cons p rest ih =>
      obtain ⟨pk, pv⟩ := p
      by_cases hp : pk = key
      · have hkk : ¬ key = k := fun hk => h hk.symm
        simp [Table.setKey, hp, Table.find, hkk]
      · simp only [Table.setKey, if_neg hp, Table.find]
        by_cases hk : pk = k
        · simp [hk]
        · simp only [if_neg hk]
          exact ih

/-! ## World — simulation state container (src/game/world/world.js, `part_005`)

Component records use exact rationals for JS number fields. -/

structure ObjectMeta where
  otype : String
  lootValue : ℚ
deriving Repr, DecidableEq

structure Health where
  hp : ℚ
  maxHp : ℚ
deriving Repr, DecidableEq

structure LootMeta where
  ltype : String
  value : ℚ
deriving Repr, DecidableEq

structure Transform where
  x : ℚ
  y : ℚ
  z : ℚ
  rx : ℚ
  ry : ℚ
  rz : ℚ
  sx : ℚ
  sy : ℚ
  sz : ℚ
deriving Repr, DecidableEq

structure Vec3 where
  x : ℚ
  y : ℚ
  z : ℚ
deriving Repr, DecidableEq

structure LootMotion where
  rotationSpeed : Vec3
  driftOffset : ℚ
  floatBaseY : ℚ
deriving Repr, DecidableEq

structure World where
  nextId : Nat
  entities : List Nat
  objectMeta : Table ObjectMeta
  health : Table Health
  loot : Table LootMeta
  transform : Table Transform
  velocity : Table Vec3
  lootMotion : Table LootMotion
  spin : Table Vec3
deriving Repr, DecidableEq

def World.empty : World :=
  { nextId := 1, entities := [], objectMeta := [], health := [], loot := []
    transform := [], velocity := [], lootMotion := [], spin := [] }

def World.createEntity (w : World) : World × Nat :=
  ({ w with nextId := w.nextId + 1, entities := w.entities ++ [w.nextId] }, w.nextId)

structure ObjectInput where
  otype : String
  hp : ℚ
  maxHp : ℚ
  lootValue : ℚ

def World.createObject (w : World) (meta : ObjectInput) : World × Nat :=
  let r := w.createEntity
  let id := r.2
  ({ r.1 with
      objectMeta := r.1.objectMeta.setKey id { otype := meta.otype, lootValue := meta.lootValue }
      health := r.1.health.setKey id { hp := meta.hp, maxHp := meta.maxHp } }, id)

def World.createLoot (w : World) (meta : LootMeta) : World × Nat :=
  let r := w.createEntity
  let id := r.2
  ({ r.1 with loot := r.1.loot.setKey id meta }, id)

def World.removeEntity (w : World) (entityId : Nat) : World :=
  { w with
    entities := w.entities.filter (fun e => e ≠ entityId)
    objectMeta := w.objectMeta.eraseKey entityId
    health := w.health.eraseKey entityId
    loot := w.loot.eraseKey entityId
    transform := w.transform.eraseKey entityId
    velocity := w.velocity.eraseKey entityId
    lootMotion := w.lootMotion.eraseKey entityId
    spin := w.spin.eraseKey entityId }

def World.getHealth (w : World) (entityId : Nat) : Option Health :=
  w.health.find entityId

/-- `damage` mutates the health record in place in JS; here the table is
rewritten at the same key.  Note the source clamps only at zero:
`h.hp = Math.max(0, h.hp - amount)` — there is no clamp at `maxHp`. -/
def World.damage (w : World) (entityId : Nat) (amount : ℚ) : World × Option Health :=
  match w.health.find entityId with
  | none => (w, none)
  | some h =>
      let h2 : Health := { hp := max 0 (h.hp - amount), maxHp := h.maxHp }
      ({ w with health := w.health.setKey entityId h2 }, some h2)

/-! ## FixedTimestepLoop (src/core/fixedTimestepLoop.js) -/

structure FixedTimestepLoop where
  stepHz : ℚ
  maxSubSteps : Nat
  fixedDtSec : ℚ
  accumSec : ℚ
  lastFrameMs : Option ℚ
deriving Repr, DecidableEq

/-- Constructor: `new FixedTimestepLoop({stepHz, maxSubSteps})`. -/
def FixedTimestepLoop.make (stepHz : ℚ) (maxSubSteps : Nat) : FixedTimestepLoop :=
  { stepHz := stepHz, maxSubSteps := maxSubSteps
    fixedDtSec := 1 / stepHz, accumSec := 0, lastFrameMs := none }

/-- The result of one `advance` call.  `trace` records the `dtSec` argument
of every `stepFn` invocation, in call order. -/
structure AdvanceResult where
  steps : Nat
  alpha : ℚ
  trace : List ℚ
deriving Repr, DecidableEq

/-- The `while (accum >= fixedDt && steps < maxSubSteps)` loop, recursing on
the remaining step budget. -/
def FixedTimestepLoop.runSteps (fixedDt : ℚ) : Nat → ℚ → List ℚ × ℚ
  | 0, accum => ([], accum)
  | n + 1, accum =>
      if fixedDt ≤ accum then
        let r := FixedTimestepLoop.runSteps fixedDt n (accum - fixedDt)
        (fixedDt :: r.1, r.2)
      else ([], accum)

def FixedTimestepLoop.advance (L : FixedTimestepLoop) (nowMs : ℚ) :
    FixedTimestepLoop × AdvanceResult :=
  match L.lastFrameMs with
  | none => ({ L with lastFrameMs := some nowMs }, { steps := 0, alpha := 0, trace := [] })
  | some last =>
      let frameDtSec := min (1/4 : ℚ) ((nowMs - last) / 1000)
      let accum := L.accumSec + frameDtSec
      let r := FixedTimestepLoop.runSteps L.fixedDtSec L.maxSubSteps accum
      ({ L with lastFrameMs := some nowMs, accumSec := r.2 },
       { steps := r.1.length, alpha := r.2 / L.fixedDtSec, trace := r.1 })

theorem FixedTimestepLoop.runSteps_spec (fixedDt : ℚ) (hdt : 0 < fixedDt) :
    ∀ (n : Nat) (accum : ℚ), 0 ≤ accum →
      (FixedTimestepLoop.runSteps fixedDt n accum).1 =
        List.replicate (min ⌊accum / fixedDt⌋₊ n) fixedDt ∧
      (FixedTimestepLoop.runSteps fixedDt n accum).2 =
        accum - ((min ⌊accum / fixedDt⌋₊ n : ℕ) : ℚ) * fixedDt := by
  intro n
  induction n with
  | zero => intro accum _; simp [FixedTimestepLoop.runSteps]
  | succ n ih =>
      intro accum hacc
      by_cases hge : fixedDt ≤ accum
      · have hacc2 : 0 ≤ accum - fixedDt := by linarith
        have hrec := ih (accum - fixedDt) hacc2
        have hfloor1 : 1 ≤ ⌊accum / fixedDt⌋₊ := by
          have h1 : (1 : ℚ) ≤ accum / fixedDt := (one_le_div hdt).mpr hge
          exact (Nat.one_le_floor_iff _).mpr h1
        have hsub : (accum - fixedDt) / fixedDt = accum / fixedDt - 1 := by
          field_simp
        have hfs : ⌊(accum - fixedDt) / fixedDt⌋₊ = ⌊accum / fixedDt⌋₊ - 1 := by
          rw [hsub]
          have h := Nat.floor_sub_nat (accum / fixedDt) 1
          simp only [Nat.cast_one] at h
          exact h
        have hmin : min ⌊accum / fixedDt⌋₊ (n + 1) =
            (min (⌊accum / fixedDt⌋₊ - 1) n) + 1 := by
          omega
        constructor
        · simp only [FixedTimestepLoop.runSteps, if_pos hge]
          rw [hrec.1, hfs, hmin, List.replicate_succ]
        · simp only [FixedTimestepLoop.runSteps, if_pos hge]
          rw [hrec.2, hfs, hmin]
          push_cast
          ring
      · have hlt : accum < fixedDt := lt_of_not_le hge
        have hfloor0 : ⌊accum / fixedDt⌋₊ = 0 := by
          apply Nat.floor_eq_zero.mpr
          rw [div_lt_one hdt]
          exact hlt
        simp [FixedTimestepLoop.runSteps, if_neg hge, hfloor0]

/-! ## Claims C1–C3 -/

/-- A world holding one entity with `hp = 5`, `maxHp = 10`. -/
def damageWorldCx : World :=
  { World.empty with entities := [1], health := [(1, { hp := 5, maxHp := 10 })] }

/-- C1, counterexample.  `damage(1, -10)` on an entity with `hp = 5`,
`maxHp = 10` yields `hp = 15 > maxHp` — the source clamps only at zero, so
a negative amount raises `hp` above `maxHp`, contradicting the claim. -/
theorem damage_negative_amount_exceeds_maxHp :
    (damageWorldCx.damage 1 (-10)).2 = some { hp := 15, maxHp := 10 } ∧
    ¬ ((15 : ℚ) ≤ 10) := by
  constructor
  · have hfind : damageWorldCx.health.find 1 = some { hp := 5, maxHp := 10 } := rfl
    show (World.damage _ _ _).2 = _
    simp only [World.damage, hfind]
    norm_num [Health.mk.injEq]
  · norm_num

/-- C1, amended.  `damage` clamps `hp` below at `0` only: when the entity
has a health row, the result has `hp = max 0 (hp - amount)`, which is
nonnegative, and stays `≤ maxHp` whenever the amount is nonnegative and the
row started inside `[0, maxHp]`; with no health row it returns `null` and
leaves the world unchanged.  There is no upper clamp, so negative amounts
can push `hp` above `maxHp`. -/
theorem damage_clamps_at_zero (w : World) (e : Nat) (amt : ℚ) :
    (w.health.find e = none → w.damage e amt = (w, none)) ∧
    (∀ h, w.health.find e = some h →
      (w.damage e amt).2 = some { hp := max 0 (h.hp - amt), maxHp := h.maxHp } ∧
      0 ≤ max 0 (h.hp - amt) ∧
      (0 ≤ amt → 0 ≤ h.hp → h.hp ≤ h.maxHp → max 0 (h.hp - amt) ≤ h.maxHp)) := by
  constructor
  · intro hnone
    simp [World.damage, hnone]
  · intro h hfind
    refine ⟨by simp [World.damage, hfind], le_max_left _ _, ?_⟩
    intro hamt hhp hle
    have h1 : h.hp - amt ≤ h.maxHp := by linarith
    have h2 : (0 : ℚ) ≤ h.maxHp := le_trans hhp hle
    exact max_le h2 h1

/-- C1, witness for the amended theorem at `hp = 5`, `maxHp = 10`,
`amount = 3`. -/
theorem damage_clamps_at_zero_witness :
    (damageWorldCx.damage 1 3).2 = some { hp := max 0 (5 - 3), maxHp := 10 } ∧
    max (0 : ℚ) (5 - 3) ≤ 10 := by
  have h := (damage_clamps_at_zero damageWorldCx 1 3).2 { hp := 5, maxHp := 10 } rfl
  exact ⟨h.1, h.2.2 (by norm_num) (by norm_num) (by norm_num)⟩

/-- C2.  `advance`: the first call after construction performs no step and
returns zero steps and alpha; every later call adds
`min(0.25, elapsedSeconds)` to the accumulator and invokes `stepFn` with
`fixedDtSec = 1/stepHz` exactly `min(⌊accum/fixedDt⌋, maxSubSteps)` times,
subtracting one `fixedDt` per invocation; the leftover accumulator is
carried (alpha = leftover/fixedDt) and the step count never exceeds
`maxSubSteps`. -/
theorem advance_spec (L : FixedTimestepLoop) (nowMs : ℚ)
    (hdt : 0 < L.fixedDtSec) (hacc : 0 ≤ L.accumSec) :
    (∀ hz n, (FixedTimestepLoop.make hz n).fixedDtSec = 1 / hz ∧
      (FixedTimestepLoop.make hz n).lastFrameMs = none) ∧
    (L.lastFrameMs = none →
      L.advance nowMs = ({ L with lastFrameMs := some nowMs },
        { steps := 0, alpha := 0, trace := [] })) ∧
    (∀ last, L.lastFrameMs = some last → last ≤ nowMs →
      (L.advance nowMs).2.trace =
        List.replicate (min ⌊(L.accumSec + min (1/4 : ℚ) ((nowMs - last) / 1000)) / L.fixedDtSec⌋₊
          L.maxSubSteps) L.fixedDtSec ∧
      (L.advance nowMs).2.steps =
        min ⌊(L.accumSec + min (1/4 : ℚ) ((nowMs - last) / 1000)) / L.fixedDtSec⌋₊
          L.maxSubSteps ∧
      (L.advance nowMs).1.accumSec =
        (L.accumSec + min (1/4 : ℚ) ((nowMs - last) / 1000)) -
          ((min ⌊(L.accumSec + min (1/4 : ℚ) ((nowMs - last) / 1000)) / L.fixedDtSec⌋₊
            L.maxSubSteps : ℕ) : ℚ) * L.fixedDtSec ∧
      (L.advance nowMs).2.alpha = (L.advance nowMs).1.accumSec / L.fixedDtSec ∧
      (L.advance nowMs).1.lastFrameMs = some nowMs ∧
      (L.advance nowMs).2.steps ≤ L.maxSubSteps) := by
  refine ⟨?_, ?_, ?_⟩
  · intro hz n
    exact ⟨rfl, rfl⟩
  · intro hnone
    simp [FixedTimestepLoop.advance, hnone]
  · intro last hlast hmono
    have helapsed : 0 ≤ min (1/4 : ℚ) ((nowMs - last) / 1000) := by
      have h1 : 0 ≤ (nowMs - last) / 1000 := by
        apply div_nonneg
        · linarith
        · norm_num
      have h2 : (0 : ℚ) ≤ 1/4 := by norm_num
      exact le_min h2 h1
    have haccum : 0 ≤ L.accumSec + min (1/4 : ℚ) ((nowMs - last) / 1000) := by linarith
    have hrun := FixedTimestepLoop.runSteps_spec L.fixedDtSec hdt L.maxSubSteps
      (L.accumSec + min (1/4 : ℚ) ((nowMs - last) / 1000)) haccum
    simp only [FixedTimestepLoop.advance, hlast]
    refine ⟨hrun.1, ?_, hrun.2, trivial, trivial, ?_⟩
    · rw [hrun.1, List.length_replicate]
    · rw [hrun.1, List.length_replicate]
      exact Nat.min_le_right _ _

/-- A 60 Hz loop with `maxSubSteps = 5` whose baseline timestamp is 0 ms. -/
def loopSample : FixedTimestepLoop :=
  { stepHz := 60, maxSubSteps := 5, fixedDtSec := 1/60, accumSec := 0,
    lastFrameMs := some 0 }

/-- C2, witness: one-second gap at 60 Hz with `maxSubSteps = 5` clamps the
elapsed time to 0.25 s and executes exactly 5 capped steps. -/
theorem advance_spec_witness :
    (loopSample.advance 1000).2.steps =
      min ⌊((0 : ℚ) + min (1/4 : ℚ) (((1000 : ℚ) - 0) / 1000)) / (1/60 : ℚ)⌋₊ 5 ∧
    (loopSample.advance 1000).2.steps ≤ 5 := by
  have h := advance_spec loopSample 1000
    (by norm_num [loopSample]) (by norm_num [loopSample])
  have h2 := h.2.2 0 rfl (by norm_num)
  exact ⟨h2.2.1, h2.2.2.2.2.2⟩

/-- C3.  `removeEntity` purges the id from the entity set and from every
component table — lookups return absent and the id appears in no table
iteration — and a second `removeEntity` of the same id is a no-op, so
removal is idempotent. -/
theorem removeEntity_purges_and_idempotent (w : World) (e : Nat) :
    e ∉ (w.removeEntity e).entities ∧
    (w.removeEntity e).objectMeta.find e = none ∧
    (w.removeEntity e).health.find e = none ∧
    (w.removeEntity e).loot.find e = none ∧
    (w.removeEntity e).transform.find e = none ∧
    (w.removeEntity e).velocity.find e = none ∧
    (w.removeEntity e).lootMotion.find e = none ∧
    (w.removeEntity e).spin.find e = none ∧
    e ∉ (w.removeEntity e).objectMeta.keys ∧
    e ∉ (w.removeEntity e).health.keys ∧
    e ∉ (w.removeEntity e).loot.keys ∧
    e ∉ (w.removeEntity e).transform.keys ∧
    e ∉ (w.removeEntity e).velocity.keys ∧
    e ∉ (w.removeEntity e).lootMotion.keys ∧
    e ∉ (w.removeEntity e).spin.keys ∧
    (w.removeEntity e).removeEntity e = w.removeEntity e := by
  have hkeys : ∀ {α : Type} (t : Table α), e ∉ (t.eraseKey e).keys :=
    fun {α} t => Table.not_mem_keys_eraseKey t e
  have hfind : ∀ {α : Type} (t : Table α), (t.eraseKey e).find e = none :=
    fun {α} t => Table.find_eraseKey_self t e
  have hidem : ∀ {α : Type} (t : Table α), (t.eraseKey e).eraseKey e = t.eraseKey e :=
    fun {α} t => Table.eraseKey_idem t e
  have hent : e ∉ (w.entities.filter (fun x => x ≠ e)) := by
    intro hmem
    have := List.of_mem_filter hmem
    simp at this
  refine ⟨hent, hfind _, hfind _, hfind _, hfind _, hfind _, hfind _, hfind _,
    hkeys _, hkeys _, hkeys _, hkeys _, hkeys _, hkeys _, hkeys _, ?_⟩
  show World.removeEntity _ e = _
  simp only [World.removeEntity]
  congr 1
  · rw [List.filter_filter]
    simp only [Bool.and_self]
  · exact hidem _
  · exact hidem _
  · exact hidem _
  · exact hidem _
  · exact hidem _
  · exact hidem _
  · exact hidem _

/-! ## VoxelDestructionSystem (src/game/systems/voxelDestructionSystem.js)

A voxel occupancy set `Set<string>` of `"x,y,z"` keys is embedded as a
duplicate-free list of integer triples — the string key is exactly the
encoding of its integer coordinates. -/

abbrev Cell := ℤ × ℤ × ℤ

def intRange (r : Nat) : List ℤ :=
  (List.range (2 * r + 1)).map (fun (i : Nat) => (i : ℤ) - (r : ℤ))

/-- One probe of `_removeNear`'s triple loop body: reject offsets outside the
radius-`r` ball, then keep the cell together with its squared distance when
it is occupied. -/
def cellProbe (filled : List Cell) (cx cy cz : ℤ) (r : Nat) (dz dy dx : ℤ) :
    Option (Cell × ℤ) :=
  let d2 := dx * dx + dy * dy + dz * dz
  if d2 > (r : ℤ) * (r : ℤ) then none
  else if (cx + dx, cy + dy, cz + dz) ∈ filled then
    some ((cx + dx, cy + dy, cz + dz), d2) else none

/-- The candidate list `_removeNear` collects at a fixed radius `r`:
`dz` outer loop, `dy` middle, `dx` inner, each over `[-r, r]`. -/
def ballCandidates (filled : List Cell) (cx cy cz : ℤ) (r : Nat) : List (Cell × ℤ) :=
  (intRange r).flatMap fun dz =>
    (intRange r).flatMap fun dy =>
      (intRange r).filterMap fun dx => cellProbe filled cx cy cz r dz dy dx

/-- The `for (let r = 0; r <= maxR; r++) ... if (candidates.length > 0) break`
loop with `maxR = 4`: the candidates of the first radius that holds any
occupied cell, or the (empty) radius-4 result. -/
def removeNearCandidates (filled : List Cell) (cx cy cz : ℤ) : List (Cell × ℤ) :=
  if ballCandidates filled cx cy cz 0 ≠ [] then ballCandidates filled cx cy cz 0 else
  if ballCandidates filled cx cy cz 1 ≠ [] then ballCandidates filled cx cy cz 1 else
  if ballCandidates filled cx cy cz 2 ≠ [] then ballCandidates filled cx cy cz 2 else
  if ballCandidates filled cx cy cz 3 ≠ [] then ballCandidates filled cx cy cz 3 else
  ballCandidates filled cx cy cz 4

/-- The `if (filled.delete(k)) removed.push(k)` loop, bounded by
`removed.length < target`; returns the removed cells (in order) and the
remaining occupancy set. -/
def takeRemove : List (Cell × ℤ) → List Cell → Nat → List Cell × List Cell
  | [], filled, _ => ([], filled)
  | _ :: _, filled, 0 => ([], filled)
  | (k, _) :: rest, filled, t + 1 =>
      if k ∈ filled then
        let r := takeRemove rest (filled.erase k) t
        (k :: r.1, r.2)
      else takeRemove rest filled (t + 1)

/-- `VoxelDestructionSystem._removeNear`: expand the search radius to the
first shell holding occupied cells, sort that shell nearest-first (stable
sort on squared distance, like `Array.prototype.sort`), and remove up to
`target` cells. -/
def removeNear (filled : List Cell) (cx cy cz : ℤ) (target : Nat) :
    List Cell × List Cell :=
  let candidates := removeNearCandidates filled cx cy cz
  if candidates = [] then ([], filled)
  else
    let sorted := candidates.mergeSort (fun a b => decide (a.2 ≤ b.2))
    takeRemove sorted filled target

/-- The per-hit removal quota of `onHit`:
`voxPerHp = max(0.02, initialCount / max(1, maxHp))`,
`targetRemove = clamp(ceil(damage * voxPerHp), 1, 18)`. -/
def voxQuota (damage : ℚ) (maxHp : ℚ) (initialCount : Nat) : ℤ :=
  let voxPerHp : ℚ := max (2/100) ((initialCount : ℚ) / max 1 maxHp)
  max 1 (min 18 ⌈damage * voxPerHp⌉)

def voxQuotaN (damage : ℚ) (maxHp : ℚ) (initialCount : Nat) : Nat :=
  (voxQuota damage maxHp initialCount).toNat

theorem intRange_nodup (r : Nat) : (intRange r).Nodup := by
  unfold intRange
  have hinj : Function.Injective (fun i : ℕ => (i : ℤ) - (r : ℤ)) := by
    intro a b h
    simp only at h
    omega
  exact List.Nodup.map hinj (List.nodup_range _)

theorem cellProbe_eq_some {filled : List Cell} {cx cy cz : ℤ} {r : Nat}
    {dz dy dx : ℤ} {p : Cell × ℤ}
    (h : cellProbe filled cx cy cz r dz dy dx = some p) :
    p.1 = (cx + dx, cy + dy, cz + dz) ∧ p.1 ∈ filled := by
  unfold cellProbe at h
  by_cases h1 : dx * dx + dy * dy + dz * dz > (r : ℤ) * (r : ℤ)
  · simp [h1] at h
  · by_cases h2 : (cx + dx, cy + dy, cz + dz) ∈ filled
    · simp [h1, h2] at h
      subst h
      exact ⟨rfl, h2⟩
    · simp [h1, h2] at h

theorem mem_keys_probe {filled : List Cell} {cx cy cz : ℤ} {r : Nat}
    {dz dy : ℤ} {b : Cell}
    (h : b ∈ (intRange r).filterMap
      (fun dx => (cellProbe filled cx cy cz r dz dy dx).map Prod.fst)) :
    (∃ dx, b = (cx + dx, cy + dy, cz + dz)) ∧ b ∈ filled := by
  rcases List.mem_filterMap.mp h with ⟨dx, _, hdx⟩
  rcases Option.map_eq_some'.mp hdx with ⟨p, hp, hpb⟩
  have hc := cellProbe_eq_some hp
  subst hpb
  exact ⟨⟨dx, hc.1⟩, hc.2⟩

theorem ballCandidates_keys_nodup (filled : List Cell) (cx cy cz : ℤ) (r : Nat) :
    ((ballCandidates filled cx cy cz r).map Prod.fst).Nodup := by
  unfold ballCandidates
  rw [List.map_flatMap]
  rw [List.nodup_flatMap]
  constructor
  · intro dz _
    rw [List.map_flatMap, List.nodup_flatMap]
    constructor
    · intro dy _
      rw [List.map_filterMap]
      apply List.Nodup.filterMap ?_ (intRange_nodup r)
      intro a a' b hb hb'
      rcases Option.map_eq_some'.mp hb with ⟨p, hp, hpb⟩
      rcases Option.map_eq_some'.mp hb' with ⟨p', hp', hpb'⟩
      have h1 := (cellProbe_eq_some hp).1
      have h2 := (cellProbe_eq_some hp').1
      have : p.1 = p'.1 := by rw [hpb, hpb']
      rw [h1, h2] at this
      have hx : cx + a = cx + a' := congrArg Prod.fst this
      omega
    · apply (intRange_nodup r).imp
      intro dy dy' hne
      intro b hb hb'
      simp only [List.map_filterMap] at hb hb'
      rcases (mem_keys_probe hb).1 with ⟨dx, rfl⟩
      rcases (mem_keys_probe hb').1 with ⟨dx', heq⟩
      have hy : cy + dy = cy + dy' := congrArg (fun c : Cell => c.2.1) heq
      exact hne (by omega)
  · apply (intRange_nodup r).imp
    intro dz dz' hne
    intro b hb hb'
    simp only [List.map_flatMap] at hb hb'
    rcases List.mem_flatMap.mp hb with ⟨dy, _, hb1⟩
    rcases List.mem_flatMap.mp hb' with ⟨dy', _, hb2⟩
    simp only [List.map_filterMap] at hb1 hb2
    rcases (mem_keys_probe hb1).1 with ⟨dx, rfl⟩
    rcases (mem_keys_probe hb2).1 with ⟨dx', heq⟩
    have hz : cz + dz = cz + dz' := congrArg (fun c : Cell => c.2.2) heq
    exact hne (by omega)

theorem ballCandidates_mem_filled {filled : List Cell} {cx cy cz : ℤ} {r : Nat}
    {p : Cell × ℤ} (h : p ∈ ballCandidates filled cx cy cz r) : p.1 ∈ filled := by
  unfold ballCandidates at h
  rcases List.mem_flatMap.mp h with ⟨dz, _, h1⟩
  rcases List.mem_flatMap.mp h1 with ⟨dy, _, h2⟩
  rcases List.mem_filterMap.mp h2 with ⟨dx, _, h3⟩
  exact (cellProbe_eq_some h3).2

theorem removeNearCandidates_keys_nodup (filled : List Cell) (cx cy cz : ℤ) :
    ((removeNearCandidates filled cx cy cz).map Prod.fst).Nodup := by
  unfold removeNearCandidates
  split
  · exact ballCandidates_keys_nodup filled cx cy cz 0
  · split
    · exact ballCandidates_keys_nodup filled cx cy cz 1
    · split
      · exact ballCandidates_keys_nodup filled cx cy cz 2
      · split
        · exact ballCandidates_keys_nodup filled cx cy cz 3
        · exact ballCandidates_keys_nodup filled cx cy cz 4

theorem removeNearCandidates_mem_filled {filled : List Cell} {cx cy cz : ℤ}
    {p : Cell × ℤ} (h : p ∈ removeNearCandidates filled cx cy cz) : p.1 ∈ filled := by
  unfold removeNearCandidates at h
  split at h
  · exact ballCandidates_mem_filled h
  · split at h
    · exact ballCandidates_mem_filled h
    · split at h
      · exact ballCandidates_mem_filled h
      · split at h
        · exact ballCandidates_mem_filled h
        · exact ballCandidates_mem_filled h

theorem takeRemove_length (cands : List (Cell × ℤ)) (filled : List Cell) (t : Nat)
    (hnd : (cands.map Prod.fst).Nodup) (hmem : ∀ p ∈ cands, p.1 ∈ filled) :
    (takeRemove cands filled t).1.length = min t cands.length := by
  induction cands generalizing filled t with
  | nil => cases t <;> simp [takeRemove]
  | cons p rest ih =>
      obtain ⟨k, d⟩ := p
      cases t with
      | zero => simp [takeRemove]
      | succ t =>
          have hk : k ∈ filled := hmem (k, d) (List.mem_cons_self _ _)
          have hnd' : (rest.map Prod.fst).Nodup := (List.nodup_cons.mp hnd).2
          have hknot : k ∉ rest.map Prod.fst := (List.nodup_cons.mp hnd).1
          have hmem' : ∀ p ∈ rest, p.1 ∈ filled.erase k := by
            intro q hq
            have hqk : q.1 ≠ k := by
              intro hqe
              exact hknot (hqe ▸ List.mem_map_of_mem Prod.fst hq)
            exact (List.mem_erase_of_ne hqk).mpr (hmem q (List.mem_cons_of_mem _ hq))
          simp only [takeRemove, if_pos hk]
          have := ih (filled.erase k) t hnd' hmem'
          simp only [List.length_cons, this]
          omega

/-- C4, counterexample input: 100 occupied cells in a row, the hit cell
`(0,0,0)` among them; `maxHp = 100`, `initialCount = 100`, `damage = 20`. -/
def filled100 : List Cell :=
  (List.range 100).map (fun (i : Nat) => (((i : ℤ), 0, 0) : Cell))

theorem removeNear_length (filled : List Cell) (cx cy cz : ℤ) (target : Nat) :
    (removeNear filled cx cy cz target).1.length =
      min target (removeNearCandidates filled cx cy cz).length := by
  unfold removeNear
  by_cases hc : removeNearCandidates filled cx cy cz = []
  · simp [hc]
  · simp only [if_neg hc]
    have hperm := List.mergeSort_perm (removeNearCandidates filled cx cy cz)
      (fun a b => decide (a.2 ≤ b.2))
    have hnd : (((removeNearCandidates filled cx cy cz).mergeSort
        (fun a b => decide (a.2 ≤ b.2))).map Prod.fst).Nodup :=
      ((hperm.map Prod.fst).nodup_iff).mpr (removeNearCandidates_keys_nodup filled cx cy cz)
    have hmem : ∀ p ∈ (removeNearCandidates filled cx cy cz).mergeSort
        (fun a b => decide (a.2 ≤ b.2)), p.1 ∈ filled := by
      intro p hp
      exact removeNearCandidates_mem_filled (hperm.mem_iff.mp hp)
    rw [takeRemove_length _ _ _ hnd hmem, hperm.length_eq]

theorem voxQuotaN_scenario : voxQuotaN 20 100 100 = 18 := by
  have h1 : voxQuota 20 100 100 = 18 := by
    unfold voxQuota
    norm_num
  unfold voxQuotaN
  rw [h1]
  rfl

/-- C4, counterexample.  The 100-voxel, `maxHp = 100` object hit for
`damageAmount = 20` with the hit cell itself occupied removes exactly one
voxel, not `clamp(ceil(20 × 100/100), 1, 18) = 18`: the radius search stops
at the first radius that holds any occupied cell (the hit cell, at radius
0), so only the cells of that first shell are eligible. -/
theorem voxel_hit_removes_one_not_eighteen :
    (removeNear filled100 0 0 0 (voxQuotaN 20 100 100)).1.length = 1 ∧
    (1 : Nat) ≠ 18 := by
  have hcands : removeNearCandidates filled100 0 0 0 = [((0, 0, 0), 0)] := by decide
  constructor
  · unfold removeNear
    rw [hcands, voxQuotaN_scenario]
    simp only [List.mergeSort_singleton]
    decide
  · decide

/-- C4, amended.  The per-hit quota follows the claimed formula (with a
`0.02` floor on the voxels-per-hp ratio): for the scenario values it is
`clamp(ceil(20 × 100/100), 1, 18) = 18`.  The removal, however, searches
radii `r = 0..4` outward only until the first radius holding any occupied
cell and removes `min(quota, k)` cells nearest-first, where `k` is the
number of occupied cells in that first shell — it does not continue outward
until the quota is met, and removes nothing when no occupied cell lies
within radius 4. -/
theorem voxel_quota_and_first_shell (filled : List Cell) (cx cy cz : ℤ) (target : Nat) :
    voxQuotaN 20 100 100 = 18 ∧
    (removeNear filled cx cy cz target).1.length =
      min target (removeNearCandidates filled cx cy cz).length :=
  ⟨voxQuotaN_scenario, removeNear_length filled cx cy cz target⟩

/-! ## Game state (src/game.js wiring) and RenderRegistry (`part_004`)

The render-side `Object3D` handle is reduced to the fields the simulation
reads: the `userData.entityId` ownership tag written by
`RenderRegistry.bind`, `userData.type`, the geometry bounding-sphere radius,
and the mutable voxel payload `userData.voxel`.  Side effects on
collaborators (VFX, sound, HUD) are recorded as an event trace. -/

structure Quat where
  x : ℚ
  y : ℚ
  z : ℚ
  w : ℚ
deriving Repr, DecidableEq

structure VoxData where
  filled : List Cell
  resource : List Cell
  initialCount : Option Nat
deriving Repr, DecidableEq

structure Obj3D where
  entityId : Option Nat
  otype : String
  geoRadius : ℚ
  vox : Option VoxData
deriving Repr, DecidableEq

structure Bullet where
  pos : Vec3
  vel : Vec3
  life : ℤ
deriving Repr, DecidableEq

structure Stats where
  storage : Nat
  maxStorage : Nat
  lootScore : ℚ
deriving Repr, DecidableEq

inductive GEvent where
  | damaged (e : Nat)
  | destroyed (e : Nat)
  | collected (e : Nat)
  | message (s : String)
deriving Repr, DecidableEq

structure GState where
  world : World
  rotationQuat : Table Quat
  registry : Table Obj3D
  objects : List Nat
  bullets : List Bullet
  currentTarget : Option Nat
  lockSuppressUntil : ℚ
  playerEntityId : Option Nat
  cameraPresent : Bool
  stats : Stats
  rebuildQueue : List Nat
  events : List GEvent

def countDestroyed (evs : List GEvent) (e : Nat) : Nat :=
  evs.countP (fun ev => match ev with
    | GEvent.destroyed e2 => decide (e2 = e)
    | _ => false)

def countDamaged (evs : List GEvent) (e : Nat) : Nat :=
  evs.countP (fun ev => match ev with
    | GEvent.damaged e2 => decide (e2 = e)
    | _ => false)

/-- Registry well-formedness: every bound handle carries its own entity id
in its ownership tag, exactly as `RenderRegistry.bind` writes it. -/
def WFReg (reg : Table Obj3D) : Prop :=
  ∀ e obj, reg.find e = some obj → obj.entityId = some e

/-! ## Game.destroyObject / Game.destroyObjectEntity (src/game.js 664-708) -/

/-- `destroyObject(obj, index)`: explosion sound/visuals and
`spawnOnDestroyed`, conditional `unbind`+`removeEntity` on the handle's
ownership tag, scene removal, splice out of `objects`, and the "Exploded"
message.  `e` is the id under which the handle sits in the `objects`
bookkeeping list.  `spawnOnDestroyed` is recorded as the `destroyed`
event: besides effects, it spawns loot (`spawnLoot`/`spawnVoxelExplosion`
→ `world.createLoot` plus transform/velocity/lootMotion rows and a
registry bind), but every id it creates is a fresh `nextId` — never an id
live before the call — so the spawned rows are elided and theorems about
pre-existing entities are unaffected. -/
def destroyObject (st : GState) (obj : Obj3D) (e : Nat) : GState :=
  let st1 := { st with events := st.events ++ [GEvent.destroyed e] }
  let st2 :=
    match obj.entityId with
    | some tag =>
        { st1 with registry := st1.registry.eraseKey tag
                   world := st1.world.removeEntity tag }
    | none => st1
  { st2 with objects := st2.objects.erase e
             events := st2.events ++ [GEvent.message "Exploded"] }

/-- `destroyObjectEntity(entityId)`: world-first destroy entrypoint.  Its
found-but-not-in-`objects` branch fires `spawnOnDestroyed` directly; as in
`destroyObject`, that spawn is recorded as the `destroyed` event and its
fresh-id loot rows are elided. -/
def destroyObjectEntity (st : GState) (e : Nat) : GState :=
  match st.registry.find e with
  | none =>
      { st with registry := st.registry.eraseKey e
                world := st.world.removeEntity e }
  | some obj =>
      if e ∈ st.objects then destroyObject st obj e
      else
        let st1 := { st with events := st.events ++ [GEvent.destroyed e] }
        { st1 with registry := st1.registry.eraseKey e
                   world := st1.world.removeEntity e }

/-! ## SpawnSystem.releaseLoot (src/game/systems/spawnSystem.js 514-537) and
LootSystem.collectLootEntity (src/game/systems/lootSystem.js 152-171) -/

/-- `releaseLoot(loot)`: unbinds the handle's ownership tag; the visibility
and `userData` reset and the bounded pool push are render-side. -/
def releaseLoot (st : GState) (obj : Obj3D) : GState :=
  match obj.entityId with
  | some tag => { st with registry := st.registry.eraseKey tag }
  | none => st

def storageFullMessage : String := "Storage Full! Return to base."

def collectLootEntity (st : GState) (e : Nat) (value : ℚ) : GState :=
  if st.stats.storage ≥ st.stats.maxStorage then
    { st with events := st.events ++ [GEvent.message storageFullMessage] }
  else
    let st1 := { st with world := st.world.removeEntity e }
    let st2 := { st1 with
      stats := { st1.stats with storage := st1.stats.storage + 1
                                lootScore := st1.stats.lootScore + value }
      events := st1.events ++ [GEvent.collected e] }
    match st2.registry.find e with
    | none => st2
    | some obj => releaseLoot st2 obj

/-! ## CombatSystem.updateTargetLock (src/game/systems/combatSystem.js 41-215)

Camera projection is render-collaborator state: it enters as an oracle
mapping a world transform to its camera-space depth and NDC coordinates.
The acquisition scan (lines 163-193) normalizes vectors with square roots,
so its outcome is likewise an oracle.  `Math.hypot(x, y) > c` for `c ≥ 0`
is stated as `x² + y² > c²`. -/

structure ProjView where
  camZ : ℚ
  ndcX : ℚ
  ndcY : ℚ
  ndcZ : ℚ
deriving Repr, DecidableEq

structure LockParams where
  now : ℚ
  camProj : Transform → ProjView
  acquire : World → Option Nat

def screenMargin : ℚ := 98/100

def keepCenterMax : ℚ := 85/100

def acquireCenterMax : ℚ := 60/100

def isOnScreen (camProj : Transform → ProjView) (t : Transform) : Bool :=
  let v := camProj t
  if v.camZ > 0 then false
  else if v.ndcZ < -1 ∨ v.ndcZ > 1 then false
  else if |v.ndcX| > screenMargin ∨ |v.ndcY| > screenMargin then false
  else true

def centerDistSq (v : ProjView) : ℚ :=
  v.ndcX * v.ndcX + v.ndcY * v.ndcY

/-- `unlock()`: clears the lock and arms the 0.15 s re-acquisition
suppression window; crosshair state is render-side. -/
def unlockSt (P : LockParams) (st : GState) : GState :=
  { st with currentTarget := none, lockSuppressUntil := P.now + 15/100 }

def updateTargetLock (P : LockParams) (st : GState) : GState :=
  match st.playerEntityId with
  | none => st
  | some pid =>
      if st.cameraPresent = false then st
      else
        match st.world.transform.find pid, st.rotationQuat.find pid with
        | some _, some _ =>
            if st.lockSuppressUntil > P.now then { st with currentTarget := none }
            else
              match st.currentTarget with
              | some tid =>
                  match st.world.transform.find tid with
                  | none => unlockSt P st
                  | some t =>
                      if isOnScreen P.camProj t = false then unlockSt P st
                      else if centerDistSq (P.camProj t) >
                          keepCenterMax * keepCenterMax then unlockSt P st
                      else st
              | none =>
                  let best := P.acquire st.world
                  let st1 := { st with currentTarget := best }
                  match best with
                  | none => st1
                  | some bid =>
                      match st.world.transform.find bid with
                      | none => unlockSt P st1
                      | some _ => st1
        | _, _ => st

/-! ## VoxelDestructionSystem.onHit (voxelDestructionSystem.js 105-170) -/

structure BulletParams where
  k : ℚ
  weaponPower : ℚ
  worldToCell : Nat → Vec3 → Option Cell

/-- `onHit(entityId, hitWorldPos, bulletVelWorld, damage)`.  The
world-to-voxel-grid conversion (lines 113-123, `obj.worldToLocal` and the
`cellLocal` epsilon guard) is the `worldToCell` oracle.  Returns the updated
state and whether the voxel set ran out, forcing destruction.  When removed
cells include resource voxels, the source also hands them to
`spawner.spawnVoxelImpact`, which creates collectible loot via
`world.createLoot`; as with `spawnOnDestroyed` in `destroyObject`, those
spawns only ever create fresh `nextId` entities and are elided here. -/
def voxOnHit (P : BulletParams) (st : GState) (e : Nat) (hitPos : Vec3)
    (damage : ℚ) : GState × Bool :=
  match st.registry.find e with
  | none => (st, false)
  | some obj =>
      match obj.vox with
      | none => (st, false)
      | some vox =>
          if vox.filled = [] then (st, false)
          else
            match P.worldToCell e hitPos with
            | none => (st, false)
            | some c =>
                let maxHp := match st.world.getHealth e with
                  | some h => h.maxHp
                  | none => 1
                let initialCount := match vox.initialCount with
                  | some n => n
                  | none => vox.filled.length
                let targetRemove := voxQuotaN damage maxHp initialCount
                let rr := removeNear vox.filled c.1 c.2.1 c.2.2 targetRemove
                if rr.1 = [] then (st, false)
                else
                  let newResource := vox.resource.filter (fun kk => kk ∉ rr.1)
                  let obj2 := { obj with vox := some { vox with
                    filled := rr.2, resource := newResource } }
                  let st1 := { st with
                    registry := st.registry.setKey e obj2
                    rebuildQueue :=
                      if e ∈ st.rebuildQueue then st.rebuildQueue
                      else st.rebuildQueue ++ [e] }
                  if rr.2 = [] then
                    let st2 := { st1 with world := { st1.world with
                      health := match st1.world.getHealth e with
                        | some h => st1.world.health.setKey e { h with hp := 0 }
                        | none => st1.world.health } }
                    (destroyObjectEntity st2 e, true)
                  else (st1, false)

/-! ## CombatSystem.updateBullets (combatSystem.js 328-471) -/

def neighborOffsets : List (ℤ × ℤ × ℤ) :=
  (intRange 1).flatMap fun dz2 =>
    (intRange 1).flatMap fun dy2 =>
      (intRange 1).map fun dx2 => (dx2, dy2, dz2)

/-- The 3×3×3 voxel-aware hit test of lines 379-391: the bullet registers
only when some occupied cell sits in the neighborhood of its grid cell. -/
def neighborhoodHit (filled : List Cell) (c : Cell) : Bool :=
  neighborOffsets.any (fun d =>
    decide ((c.1 + d.1, c.2.1 + d.2.1, c.2.2 + d.2.2) ∈ filled))

/-- `checkEntity(entityId)` for one bullet: `none` when the bullet misses
(no state change), `some st'` when the hit is fully processed (damage,
voxel carving, sticky planet lock, bullet consumption is the caller's). -/
def checkEntity (P : BulletParams) (st : GState) (b : Bullet) (e : Nat) :
    Option GState :=
  match st.world.transform.find e with
  | none => none
  | some t =>
      let dx := b.pos.x - t.x
      let dy := b.pos.y - t.y
      let dz := b.pos.z - t.z
      let dist2 := dx * dx + dy * dy + dz * dz
      match st.registry.find e with
      | none => none
      | some obj =>
          let radius := t.sx * obj.geoRadius
          if dist2 > radius * radius then none
          else
            let voxOk : Bool :=
              match obj.vox with
              | none => true
              | some vox =>
                  if vox.filled = [] then true
                  else
                    match P.worldToCell e b.pos with
                    | none => true
                    | some c => neighborhoodHit vox.filled c
            if voxOk = false then none
            else
              let st1 := { st with events := st.events ++ [GEvent.damaged e] }
              let dmg := (st1.world).damage e P.weaponPower
              let st2 := { st1 with world := dmg.1 }
              let hres := dmg.2
              let vo := voxOnHit P st2 e b.pos P.weaponPower
              let st3 := vo.1
              let forced := vo.2
              let st4 := if obj.otype = "planet" then
                  { st3 with currentTarget := some e } else st3
              some (match hres with
                | none => st4
                | some h =>
                    if (if forced then (0 : ℚ) else h.hp) ≤ 0 then
                      destroyObjectEntity st4 e
                    else st4)

def tryHit (P : BulletParams) (st : GState) (b : Bullet) :
    List Nat → GState × Option Bullet
  | [] => (st, some b)
  | e :: rest =>
      match checkEntity P st b e with
      | some st2 => (st2, none)
      | none => tryHit P st b rest

/-- One bullet of the `for (let i = bullets.length - 1; ...)` loop body:
integrate position, decrement life, expire, else collision-test against the
locked planet alone or all `objectMeta` entries in iteration order. -/
def stepBullet (P : BulletParams) (lockedId : Option Nat)
    (lockedType : Option String) (st : GState) (b : Bullet) :
    GState × Option Bullet :=
  let b1 : Bullet := { b with
    pos := { x := b.pos.x + b.vel.x * P.k, y := b.pos.y + b.vel.y * P.k
             z := b.pos.z + b.vel.z * P.k }
    life := b.life - 1 }
  if b1.life ≤ 0 then (st, none)
  else
    match lockedId with
    | some lid =>
        if lockedType = some "planet" then
          match checkEntity P st b1 lid with
          | some st2 => (st2, none)
          | none => (st, some b1)
        else tryHit P st b1 st.world.objectMeta.keys
    | none => tryHit P st b1 st.world.objectMeta.keys

/-- The loop runs from the highest index down; mutations made while
processing a bullet are visible to the bullets at lower indices. -/
def processBullets (P : BulletParams) (lockedId : Option Nat)
    (lockedType : Option String) (st : GState) :
    List Bullet → GState × List Bullet
  | [] => (st, [])
  | b :: rest =>
      let r := processBullets P lockedId lockedType st rest
      let s := stepBullet P lockedId lockedType r.1 b
      (s.1, s.2.toList ++ r.2)

def updateBullets (P : BulletParams) (st : GState) : GState :=
  let lockedId := st.currentTarget
  let lockedType := match lockedId with
    | none => none
    | some lid => (st.world.objectMeta.find lid).map ObjectMeta.otype
  let r := processBullets P lockedId lockedType st st.bullets
  { r.1 with bullets := r.2 }

/-- `CombatSystem.update`: target lock first, then bullet integration and
collision (lines 36-39). -/
def combatUpdate (Pl : LockParams) (Pb : BulletParams) (st : GState) : GState :=
  updateBullets Pb (updateTargetLock Pl st)

/-! ## Helper lemmas for the game-state layer -/

theorem Table.find_eraseKey_none {α : Type} {t : Table α} {e : Nat} (k : Nat)
    (h : t.find e = none) : (t.eraseKey k).find e = none := by
  by_cases he : e = k
  · rw [he, Table.find_eraseKey_self]
  · rw [Table.find_eraseKey_ne _ _ _ he, h]

theorem World.mem_removeEntity_entities {w : World} {e e2 : Nat} :
    e2 ∈ (w.removeEntity e).entities ↔ (e2 ∈ w.entities ∧ e2 ≠ e) := by
  simp [World.removeEntity, List.mem_filter]

theorem WFReg.eraseKey {reg : Table Obj3D} (hwf : WFReg reg) (k : Nat) :
    WFReg (reg.eraseKey k) := by
  intro e obj h
  by_cases he : e = k
  · rw [he, Table.find_eraseKey_self] at h
    exact absurd h (by simp)
  · rw [Table.find_eraseKey_ne _ _ _ he] at h
    exact hwf e obj h

theorem WFReg.setKey {reg : Table Obj3D} (hwf : WFReg reg) {k : Nat} {obj : Obj3D}
    (htag : obj.entityId = some k) : WFReg (reg.setKey k obj) := by
  intro e o h
  by_cases he : e = k
  · subst he
    rw [Table.find_setKey_self] at h
    cases h
    exact htag
  · rw [Table.find_setKey_ne _ _ _ _ he] at h
    exact hwf e o h

theorem countDestroyed_append (l1 l2 : List GEvent) (e : Nat) :
    countDestroyed (l1 ++ l2) e = countDestroyed l1 e + countDestroyed l2 e := by
  simp [countDestroyed, List.countP_append]

theorem countDamaged_append (l1 l2 : List GEvent) (e : Nat) :
    countDamaged (l1 ++ l2) e = countDamaged l1 e + countDamaged l2 e := by
  simp [countDamaged, List.countP_append]

theorem countDestroyed_destroyed (x e : Nat) :
    countDestroyed [GEvent.destroyed x] e = if x = e then 1 else 0 := by
  by_cases h : x = e <;> simp [countDestroyed, List.countP_cons, h]

theorem countDestroyed_damaged (x e : Nat) :
    countDestroyed [GEvent.damaged x] e = 0 := by
  simp [countDestroyed, List.countP_cons]

theorem countDestroyed_message (s : String) (e : Nat) :
    countDestroyed [GEvent.message s] e = 0 := by
  simp [countDestroyed, List.countP_cons]

theorem countDestroyed_collected (x e : Nat) :
    countDestroyed [GEvent.collected x] e = 0 := by
  simp [countDestroyed, List.countP_cons]

theorem countDamaged_damaged (x e : Nat) :
    countDamaged [GEvent.damaged x] e = if x = e then 1 else 0 := by
  by_cases h : x = e <;> simp [countDamaged, List.countP_cons, h]

theorem countDamaged_destroyed (x e : Nat) :
    countDamaged [GEvent.destroyed x] e = 0 := by
  simp [countDamaged, List.countP_cons]

theorem countDamaged_message (s : String) (e : Nat) :
    countDamaged [GEvent.message s] e = 0 := by
  simp [countDamaged, List.countP_cons]

/-! ## State characterizations of the removal operations -/

theorem collectLoot_eq_full {st : GState} {e : Nat} {v : ℚ}
    (hge : st.stats.storage ≥ st.stats.maxStorage) :
    collectLootEntity st e v =
      { st with events := st.events ++ [GEvent.message storageFullMessage] } := by
  simp [collectLootEntity, if_pos hge]

theorem collectLoot_eq_of_none {st : GState} {e : Nat} {v : ℚ}
    (hge : ¬ st.stats.storage ≥ st.stats.maxStorage)
    (hfind : st.registry.find e = none) :
    collectLootEntity st e v =
      { st with world := st.world.removeEntity e
                stats := { storage := st.stats.storage + 1
                           maxStorage := st.stats.maxStorage
                           lootScore := st.stats.lootScore + v }
                events := st.events ++ [GEvent.collected e] } := by
  simp [collectLootEntity, if_neg hge, hfind]

theorem collectLoot_eq_of_tag {st : GState} {e : Nat} {v : ℚ} {obj : Obj3D} {tag : Nat}
    (hge : ¬ st.stats.storage ≥ st.stats.maxStorage)
    (hfind : st.registry.find e = some obj) (htag : obj.entityId = some tag) :
    collectLootEntity st e v =
      { st with world := st.world.removeEntity e
                registry := st.registry.eraseKey tag
                stats := { storage := st.stats.storage + 1
                           maxStorage := st.stats.maxStorage
                           lootScore := st.stats.lootScore + v }
                events := st.events ++ [GEvent.collected e] } := by
  simp [collectLootEntity, if_neg hge, hfind, releaseLoot, htag]

theorem collectLoot_eq_of_notag {st : GState} {e : Nat} {v : ℚ} {obj : Obj3D}
    (hge : ¬ st.stats.storage ≥ st.stats.maxStorage)
    (hfind : st.registry.find e = some obj) (htag : obj.entityId = none) :
    collectLootEntity st e v =
      { st with world := st.world.removeEntity e
                stats := { storage := st.stats.storage + 1
                           maxStorage := st.stats.maxStorage
                           lootScore := st.stats.lootScore + v }
                events := st.events ++ [GEvent.collected e] } := by
  simp [collectLootEntity, if_neg hge, hfind, releaseLoot, htag]

theorem destroyEntity_eq_of_none {st : GState} {e : Nat}
    (hfind : st.registry.find e = none) :
    destroyObjectEntity st e =
      { st with registry := st.registry.eraseKey e
                world := st.world.removeEntity e } := by
  simp [destroyObjectEntity, hfind]

theorem destroyEntity_eq_of_mem {st : GState} {e : Nat} {obj : Obj3D} {tag : Nat}
    (hfind : st.registry.find e = some obj) (hobjs : e ∈ st.objects)
    (htag : obj.entityId = some tag) :
    destroyObjectEntity st e =
      { st with registry := st.registry.eraseKey tag
                world := st.world.removeEntity tag
                objects := st.objects.erase e
                events := (st.events ++ [GEvent.destroyed e]) ++
                  [GEvent.message "Exploded"] } := by
  simp [destroyObjectEntity, hfind, hobjs, destroyObject, htag]

theorem destroyEntity_eq_of_mem_notag {st : GState} {e : Nat} {obj : Obj3D}
    (hfind : st.registry.find e = some obj) (hobjs : e ∈ st.objects)
    (htag : obj.entityId = none) :
    destroyObjectEntity st e =
      { st with objects := st.objects.erase e
                events := (st.events ++ [GEvent.destroyed e]) ++
                  [GEvent.message "Exploded"] } := by
  simp [destroyObjectEntity, hfind, hobjs, destroyObject, htag]

theorem destroyEntity_eq_of_nomem {st : GState} {e : Nat} {obj : Obj3D}
    (hfind : st.registry.find e = some obj) (hobjs : e ∉ st.objects) :
    destroyObjectEntity st e =
      { st with registry := st.registry.eraseKey e
                world := st.world.removeEntity e
                events := st.events ++ [GEvent.destroyed e] } := by
  simp [destroyObjectEntity, hfind, hobjs]

/-! ## Claim C7 — loot collection respects capacity -/

/-- C7.  At capacity (`storage >= maxStorage`), `collectLootEntity` only
emits the storage-full message: storage, the world (so the loot entity and
all its rows), and the render registry are unchanged.  Under capacity,
storage increments by exactly 1, the loot value accrues, and the entity is
removed from the world (entity set and loot/transform rows). -/
theorem collectLoot_capacity (st : GState) (e : Nat) (v : ℚ) :
    (st.stats.storage ≥ st.stats.maxStorage →
      collectLootEntity st e v =
        { st with events := st.events ++ [GEvent.message storageFullMessage] }) ∧
    (st.stats.storage < st.stats.maxStorage →
      (collectLootEntity st e v).stats.storage = st.stats.storage + 1 ∧
      (collectLootEntity st e v).stats.maxStorage = st.stats.maxStorage ∧
      (collectLootEntity st e v).stats.lootScore = st.stats.lootScore + v ∧
      e ∉ (collectLootEntity st e v).world.entities ∧
      (collectLootEntity st e v).world.loot.find e = none ∧
      (collectLootEntity st e v).world.transform.find e = none) := by
  constructor
  · intro hge
    exact collectLoot_eq_full hge
  · intro hlt
    have hnot : ¬ st.stats.storage ≥ st.stats.maxStorage := not_le.mpr hlt
    have hent : e ∉ (st.world.removeEntity e).entities := by
      rw [World.mem_removeEntity_entities]
      simp
    have hloot : (st.world.removeEntity e).loot.find e = none :=
      Table.find_eraseKey_self _ _
    have htr : (st.world.removeEntity e).transform.find e = none :=
      Table.find_eraseKey_self _ _
    cases hfind : st.registry.find e with
    | none =>
        rw [collectLoot_eq_of_none hnot hfind]
        exact ⟨rfl, rfl, rfl, hent, hloot, htr⟩
    | some obj =>
        cases htag : obj.entityId with
        | none =>
            rw [collectLoot_eq_of_notag hnot hfind htag]
            exact ⟨rfl, rfl, rfl, hent, hloot, htr⟩
        | some tag =>
            rw [collectLoot_eq_of_tag hnot hfind htag]
            exact ⟨rfl, rfl, rfl, hent, hloot, htr⟩

/-- C7, witness at a concrete full-storage state and a concrete
under-capacity state. -/
def lootStateFull : GState :=
  { world := { World.empty with entities := [7], loot := [(7, { ltype := "gem", value := 3 })] }
    rotationQuat := [], registry := [], objects := [], bullets := []
    currentTarget := none, lockSuppressUntil := 0, playerEntityId := none
    cameraPresent := false
    stats := { storage := 5, maxStorage := 5, lootScore := 0 }
    rebuildQueue := [], events := [] }

def lootStateFree : GState :=
  { lootStateFull with stats := { storage := 2, maxStorage := 5, lootScore := 1 } }

theorem collectLoot_capacity_witness :
    collectLootEntity lootStateFull 7 3 =
      { lootStateFull with
        events := lootStateFull.events ++ [GEvent.message storageFullMessage] } ∧
    (collectLootEntity lootStateFree 7 3).stats.storage = 3 ∧
    (7 : Nat) ∉ (collectLootEntity lootStateFree 7 3).world.entities := by
  refine ⟨(collectLoot_capacity lootStateFull 7 3).1 (by norm_num [lootStateFull]), ?_, ?_⟩
  · have h := (collectLoot_capacity lootStateFree 7 3).2
      (by norm_num [lootStateFree, lootStateFull])
    rw [h.1]
    norm_num [lootStateFree]
  · exact ((collectLoot_capacity lootStateFree 7 3).2
      (by norm_num [lootStateFree, lootStateFull])).2.2.2.1

/-! ## Claim C8 — render bindings do not outlive entities -/

/-- No orphaned render handles: whatever is not in the entity set has no
registry binding. -/
def RegInv (st : GState) : Prop :=
  ∀ e, e ∉ st.world.entities → st.registry.find e = none

/-- C8.  Each operation that removes a world entity — loot collection
(via `releaseLoot`'s unbind of the handle's ownership tag) and both object
destruction entrypoints (explicit `unbind` in every branch) — preserves the
no-orphaned-handles invariant, given that bound handles carry their own id
(`WFReg`, what `bind` establishes). -/
theorem unbind_accompanies_removeEntity (st : GState) (e : Nat) (v : ℚ)
    (hwf : WFReg st.registry) (hinv : RegInv st) :
    RegInv (collectLootEntity st e v) ∧
    RegInv (destroyObjectEntity st e) ∧
    (∀ obj, st.registry.find e = some obj → RegInv (destroyObject st obj e)) := by
  have hbranch : ∀ e2, e2 ∉ (st.world.removeEntity e).entities →
      (st.registry.eraseKey e).find e2 = none := by
    intro e2 h2
    by_cases he : e2 = e
    · subst he
      exact Table.find_eraseKey_self _ _
    · have h2w : e2 ∉ st.world.entities := by
        intro hq
        exact h2 (World.mem_removeEntity_entities.mpr ⟨hq, he⟩)
      exact Table.find_eraseKey_none _ (hinv e2 h2w)
  refine ⟨?_, ?_, ?_⟩
  · -- collectLootEntity
    by_cases hge : st.stats.storage ≥ st.stats.maxStorage
    · rw [collectLoot_eq_full hge]
      intro e2 h2
      exact hinv e2 h2
    · cases hfind : st.registry.find e with
      | none =>
          rw [collectLoot_eq_of_none hge hfind]
          intro e2 h2
          by_cases he : e2 = e
          · subst he
            exact hfind
          · have h2w : e2 ∉ st.world.entities := by
              intro hq
              exact h2 (World.mem_removeEntity_entities.mpr ⟨hq, he⟩)
            exact hinv e2 h2w
      | some obj =>
          have htag := hwf e obj hfind
          rw [collectLoot_eq_of_tag hge hfind htag]
          intro e2 h2
          exact hbranch e2 h2
  · -- destroyObjectEntity
    cases hfind : st.registry.find e with
    | none =>
        rw [destroyEntity_eq_of_none hfind]
        intro e2 h2
        exact hbranch e2 h2
    | some obj =>
        have htag := hwf e obj hfind
        by_cases hobjs : e ∈ st.objects
        · rw [destroyEntity_eq_of_mem hfind hobjs htag]
          intro e2 h2
          exact hbranch e2 h2
        · rw [destroyEntity_eq_of_nomem hfind hobjs]
          intro e2 h2
          exact hbranch e2 h2
  · -- destroyObject at its call site
    intro obj hfind
    have htag := hwf e obj hfind
    intro e2 h2
    simp only [destroyObject, htag] at h2 ⊢
    exact hbranch e2 h2

/-- C8, witness at a concrete one-entity state. -/
def regStateW : GState :=
  { lootStateFull with
    world := { World.empty with entities := [4] }
    registry := [(4, { entityId := some 4, otype := "asteroid", geoRadius := 1, vox := none })]
    objects := [4] }

theorem unbind_accompanies_removeEntity_witness :
    (destroyObjectEntity regStateW 4).registry.find 4 = none := by
  have hwf : WFReg regStateW.registry := by
    intro e obj h
    by_cases he : (4 : Nat) = e
    · subst he
      simp [regStateW, Table.find, lootStateFull] at h
      rw [← h]
    · simp [regStateW, Table.find, lootStateFull, he] at h
  have hinv : RegInv regStateW := by
    intro e h
    by_cases he : (4 : Nat) = e
    · subst he
      exact absurd (by simp [regStateW, World.empty, lootStateFull]) h
    · simp [regStateW, Table.find, lootStateFull, he]
  have h := (unbind_accompanies_removeEntity regStateW 4 0 hwf hinv).2.1
  apply h
  intro hmem
  have : (4 : Nat) ∉ (destroyObjectEntity regStateW 4).world.entities := by
    have hfind : regStateW.registry.find 4 =
        some { entityId := some 4, otype := "asteroid", geoRadius := 1, vox := none } := rfl
    simp only [destroyObjectEntity, hfind]
    have hobjs : (4 : Nat) ∈ regStateW.objects := by simp [regStateW, lootStateFull]
    simp only [if_pos hobjs, destroyObject]
    rw [World.mem_removeEntity_entities]
    simp
  exact this hmem

/-! ## Claim C5 — target-lock hysteresis -/

/-- C5, amended.  The acquisition screen-center threshold is strictly
tighter than the keep threshold (0.60 < 0.85), and — provided the 0.15 s
post-unlock suppression window is not active — a held lock is retained by
`updateTargetLock` exactly while the target still has a transform row, is
on-screen (in front of the camera, within NDC depth bounds and the 0.98
screen margin), and its projected center distance does not exceed the keep
threshold. -/
theorem lock_hysteresis (P : LockParams) (st : GState) (pid tid : Nat)
    (pt : Transform) (pq : Quat)
    (hpid : st.playerEntityId = some pid)
    (hcam : st.cameraPresent = true)
    (hpt : st.world.transform.find pid = some pt)
    (hpq : st.rotationQuat.find pid = some pq)
    (hsup : ¬ st.lockSuppressUntil > P.now)
    (hlock : st.currentTarget = some tid) :
    acquireCenterMax < keepCenterMax ∧
    ((updateTargetLock P st).currentTarget = some tid ↔
      ∃ t, st.world.transform.find tid = some t ∧
        isOnScreen P.camProj t = true ∧
        centerDistSq (P.camProj t) ≤ keepCenterMax * keepCenterMax) := by
  constructor
  · norm_num [acquireCenterMax, keepCenterMax]
  · simp only [updateTargetLock, hpid, hcam, hpt, hpq, hlock]
    rw [if_neg (show ¬ (true = false) by simp), if_neg hsup]
    cases hft : st.world.transform.find tid with
    | none =>
        dsimp only
        simp [unlockSt]
    | some t =>
        dsimp only
        by_cases hscr : isOnScreen P.camProj t = false
        · rw [if_pos hscr]
          simp only [unlockSt]
          constructor
          · intro h
            exact absurd h (by simp)
          · rintro ⟨t2, ht2, hscr2, _⟩
            injection ht2 with hte
            rw [← hte] at hscr2
            rw [hscr] at hscr2
            exact absurd hscr2 (by simp)
        · rw [if_neg hscr]
          have hscr2 : isOnScreen P.camProj t = true := by
            cases hx : isOnScreen P.camProj t
            · exact absurd hx hscr
            · rfl
          by_cases hdist : centerDistSq (P.camProj t) > keepCenterMax * keepCenterMax
          · rw [if_pos hdist]
            simp only [unlockSt]
            constructor
            · intro h
              exact absurd h (by simp)
            · rintro ⟨t2, ht2, _, hd2⟩
              injection ht2 with hte
              rw [← hte] at hd2
              exact absurd hd2 (not_le.mpr hdist)
          · rw [if_neg hdist]
            constructor
            · intro _
              exact ⟨t, rfl, hscr2, not_lt.mp hdist⟩
            · intro _
              exact hlock

/-- Camera-projection oracle for the concrete lock scenarios: the target
sits 5 units in front of the camera, dead center, mid NDC depth. -/
def lockProjCx : Transform → ProjView :=
  fun _ => { camZ := -5, ndcX := 0, ndcY := 0, ndcZ := 1/2 }

def lockT : Transform :=
  { x := 0, y := 0, z := 0, rx := 0, ry := 0, rz := 0, sx := 1, sy := 1, sz := 1 }

def lockQ : Quat := { x := 0, y := 0, z := 0, w := 1 }

def lockWorld : World :=
  { World.empty with entities := [1, 2], transform := [(1, lockT), (2, lockT)] }

def lockStateBase : GState :=
  { world := lockWorld
    rotationQuat := [(2, lockQ)]
    registry := [], objects := [], bullets := []
    currentTarget := some 1, lockSuppressUntil := 0
    playerEntityId := some 2, cameraPresent := true
    stats := { storage := 0, maxStorage := 8, lootScore := 0 }
    rebuildQueue := [], events := [] }

def lockCxParams : LockParams :=
  { now := 1/2, camProj := lockProjCx, acquire := fun _ => none }

def lockCxState : GState := { lockStateBase with lockSuppressUntil := 1 }

def lockWParams : LockParams :=
  { now := 10, camProj := lockProjCx, acquire := fun _ => none }

/-- C5, counterexample.  With the suppression window still armed
(`lockSuppressUntil = 1 > now = 0.5`, e.g. after an unlock followed by a
planet-hit re-lock in `updateBullets`), the held lock is cleared even
though the target exists, is on-screen, and sits well inside the keep
radius — so retention is not governed by those three conditions alone. -/
theorem lock_dropped_despite_keep_conditions :
    lockCxState.world.transform.find 1 = some lockT ∧
    isOnScreen lockCxParams.camProj lockT = true ∧
    centerDistSq (lockCxParams.camProj lockT) ≤ keepCenterMax * keepCenterMax ∧
    (updateTargetLock lockCxParams lockCxState).currentTarget = none := by
  refine ⟨by rfl, ?_, ?_, ?_⟩
  · norm_num [isOnScreen, lockCxParams, lockProjCx, screenMargin]
  · norm_num [centerDistSq, lockCxParams, lockProjCx, keepCenterMax]
  · have hpid : lockCxState.playerEntityId = some 2 := by rfl
    have hcam : lockCxState.cameraPresent = true := by rfl
    have hpt : lockCxState.world.transform.find 2 = some lockT := by rfl
    have hpq : lockCxState.rotationQuat.find 2 = some lockQ := by rfl
    have hsup : lockCxState.lockSuppressUntil > lockCxParams.now := by
      norm_num [lockCxState, lockStateBase, lockCxParams]
    simp only [updateTargetLock, hpid, hcam, hpt, hpq]
    rw [if_neg (show ¬ (true = false) by simp), if_pos hsup]

/-- C5, witness for the amended theorem: with the suppression window
elapsed, the same on-screen center-distance conditions retain the lock. -/
theorem lock_hysteresis_witness :
    acquireCenterMax < keepCenterMax ∧
    (updateTargetLock lockWParams lockStateBase).currentTarget = some 1 := by
  have h := lock_hysteresis lockWParams lockStateBase 2 1 lockT lockQ (by rfl) (by rfl)
    (by rfl) (by rfl) (by norm_num [lockStateBase, lockWParams]) (by rfl)
  refine ⟨h.1, h.2.mpr ⟨lockT, by rfl, ?_, ?_⟩⟩
  · norm_num [isOnScreen, lockWParams, lockProjCx, screenMargin]
  · norm_num [centerDistSq, lockWParams, lockProjCx, keepCenterMax]

/-! ## Claim C9 — stale lock on a destroyed target -/

/-- C9, amended.  Whenever `updateTargetLock` runs with the player rows and
camera present and the locked target's transform row gone (the target was
destroyed), the lock is released — in either the suppression branch or the
retention branch.  Because `CombatSystem.update` runs `updateTargetLock`
before `updateBullets`, a target destroyed by a bullet keeps the stale lock
for the remainder of that tick; the release happens at the next tick's
`updateTargetLock`. -/
theorem stale_lock_released_next_lock_update (P : LockParams) (st : GState)
    (pid tid : Nat) (pt : Transform) (pq : Quat)
    (hpid : st.playerEntityId = some pid)
    (hcam : st.cameraPresent = true)
    (hpt : st.world.transform.find pid = some pt)
    (hpq : st.rotationQuat.find pid = some pq)
    (hlock : st.currentTarget = some tid)
    (hdead : st.world.transform.find tid = none) :
    (updateTargetLock P st).currentTarget = none := by
  simp only [updateTargetLock, hpid, hcam, hpt, hpq]
  by_cases hsup : st.lockSuppressUntil > P.now
  · simp [hsup]
  · simp [hsup, hlock, hdead, unlockSt]

/-- A state locked on id 9, which has no transform row (destroyed). -/
def staleLockState : GState := { lockStateBase with currentTarget := some 9 }

/-- C9, witness for the amended theorem: a lock on an id with no transform
row is released by the next `updateTargetLock`. -/
theorem stale_lock_released_witness :
    (updateTargetLock lockWParams staleLockState).currentTarget = none := by
  exact stale_lock_released_next_lock_update lockWParams staleLockState 2 9 lockT lockQ
    (by rfl) (by rfl) (by rfl) (by rfl) (by rfl) (by rfl)

/-! ## Claim C6 — exactly-once consumption and destruction

The destruction budget of an entity: destroyed events already emitted plus
one pending unit while a registry binding exists.  Every bullet-tick
operation is non-increasing on it — a `destroyed` event can only be emitted
by spending the registry binding, and nothing in the tick ever binds. -/

def regBit (st : GState) (e : Nat) : Nat :=
  match st.registry.find e with
  | none => 0
  | some _ => 1

def destroyBudget (st : GState) (e : Nat) : Nat :=
  countDestroyed st.events e + regBit st e

theorem regBit_eraseKey_self (st : GState) (reg2 : Table Obj3D) (e : Nat)
    (h : reg2 = st.registry.eraseKey e) :
    (Table.find reg2 e) = none := by
  rw [h]
  exact Table.find_eraseKey_self _ _

theorem destroyObjectEntity_budget (st : GState) (x : Nat) (hwf : WFReg st.registry) :
    ∀ e, destroyBudget (destroyObjectEntity st x) e ≤ destroyBudget st e := by
  intro e
  cases hfind : st.registry.find x with
  | none =>
      rw [destroyEntity_eq_of_none hfind]
      unfold destroyBudget regBit
      by_cases he : e = x
      · subst he
        simp only [Table.find_eraseKey_self, hfind]
        omega
      · simp only [Table.find_eraseKey_ne _ _ _ he]
        omega
  | some obj =>
      have htag := hwf x obj hfind
      by_cases hobjs : x ∈ st.objects
      · rw [destroyEntity_eq_of_mem hfind hobjs htag]
        unfold destroyBudget regBit
        by_cases he : x = e
        · subst he
          simp only [countDestroyed_append, countDestroyed_destroyed, countDestroyed_message,
            eq_self_iff_true, if_true, Table.find_eraseKey_self, hfind]
          omega
        · have he2 : e ≠ x := fun h => he h.symm
          simp only [countDestroyed_append, countDestroyed_destroyed, countDestroyed_message,
            if_neg he, Table.find_eraseKey_ne _ _ _ he2]
          omega
      · rw [destroyEntity_eq_of_nomem hfind hobjs]
        unfold destroyBudget regBit
        by_cases he : x = e
        · subst he
          simp only [countDestroyed_append, countDestroyed_destroyed,
            eq_self_iff_true, if_true, Table.find_eraseKey_self, hfind]
          omega
        · have he2 : e ≠ x := fun h => he h.symm
          simp only [countDestroyed_append, countDestroyed_destroyed,
            if_neg he, Table.find_eraseKey_ne _ _ _ he2]
          omega

theorem destroyObjectEntity_wf (st : GState) (x : Nat) (hwf : WFReg st.registry) :
    WFReg (destroyObjectEntity st x).registry := by
  cases hfind : st.registry.find x with
  | none =>
      rw [destroyEntity_eq_of_none hfind]
      exact hwf.eraseKey x
  | some obj =>
      have htag := hwf x obj hfind
      by_cases hobjs : x ∈ st.objects
      · rw [destroyEntity_eq_of_mem hfind hobjs htag]
        exact hwf.eraseKey x
      · rw [destroyEntity_eq_of_nomem hfind hobjs]
        exact hwf.eraseKey x

theorem destroyObjectEntity_damaged (st : GState) (x : Nat) (hwf : WFReg st.registry) :
    ∀ e, countDamaged (destroyObjectEntity st x).events e = countDamaged st.events e := by
  intro e
  cases hfind : st.registry.find x with
  | none =>
      rw [destroyEntity_eq_of_none hfind]
  | some obj =>
      have htag := hwf x obj hfind
      by_cases hobjs : x ∈ st.objects
      · rw [destroyEntity_eq_of_mem hfind hobjs htag]
        simp [countDamaged, List.countP_append, List.countP_cons]
      · rw [destroyEntity_eq_of_nomem hfind hobjs]
        simp [countDamaged, List.countP_append, List.countP_cons]

theorem World.removeEntity_others {w : World} {x e2 : Nat} (h : e2 ≠ x) :
    (w.removeEntity x).health.find e2 = w.health.find e2 ∧
    (w.removeEntity x).transform.find e2 = w.transform.find e2 ∧
    (w.removeEntity x).objectMeta.find e2 = w.objectMeta.find e2 ∧
    (e2 ∈ (w.removeEntity x).entities ↔ e2 ∈ w.entities) := by
  refine ⟨Table.find_eraseKey_ne _ _ _ h, Table.find_eraseKey_ne _ _ _ h,
    Table.find_eraseKey_ne _ _ _ h, ?_⟩
  rw [World.mem_removeEntity_entities]
  exact ⟨fun hh => hh.1, fun hh => ⟨hh, h⟩⟩

theorem World.damage_others {w : World} {x : Nat} {amt : ℚ} {e2 : Nat} (h : e2 ≠ x) :
    ((w.damage x amt).1).health.find e2 = w.health.find e2 ∧
    ((w.damage x amt).1).transform = w.transform ∧
    ((w.damage x amt).1).objectMeta = w.objectMeta ∧
    ((w.damage x amt).1).entities = w.entities := by
  unfold World.damage
  cases hfind : w.health.find x with
  | none => exact ⟨rfl, rfl, rfl, rfl⟩
  | some hrec =>
      exact ⟨Table.find_setKey_ne _ _ _ _ h, rfl, rfl, rfl⟩

/-- All preservation facts of `destroyObjectEntity` at entities other than
its argument (under registry well-formedness). -/
theorem destroyObjectEntity_others (st : GState) (x : Nat) (hwf : WFReg st.registry) :
    ∀ e2, e2 ≠ x →
      (destroyObjectEntity st x).world.health.find e2 = st.world.health.find e2 ∧
      (destroyObjectEntity st x).world.transform.find e2 = st.world.transform.find e2 ∧
      (destroyObjectEntity st x).world.objectMeta.find e2 = st.world.objectMeta.find e2 ∧
      (e2 ∈ (destroyObjectEntity st x).world.entities ↔ e2 ∈ st.world.entities) ∧
      countDestroyed (destroyObjectEntity st x).events e2 = countDestroyed st.events e2 := by
  intro e2 he2
  have hcnt : ∀ l : List GEvent,
      countDestroyed (l ++ [GEvent.destroyed x]) e2 = countDestroyed l e2 := by
    intro l
    rw [countDestroyed_append, countDestroyed_destroyed]
    rw [if_neg (fun h => he2 h.symm)]
    omega
  cases hfind : st.registry.find x with
  | none =>
      rw [destroyEntity_eq_of_none hfind]
      exact ⟨(World.removeEntity_others he2).1, (World.removeEntity_others he2).2.1,
        (World.removeEntity_others he2).2.2.1, (World.removeEntity_others he2).2.2.2, rfl⟩
  | some obj =>
      have htag := hwf x obj hfind
      by_cases hobjs : x ∈ st.objects
      · rw [destroyEntity_eq_of_mem hfind hobjs htag]
        refine ⟨(World.removeEntity_others he2).1, (World.removeEntity_others he2).2.1,
          (World.removeEntity_others he2).2.2.1, (World.removeEntity_others he2).2.2.2, ?_⟩
        rw [countDestroyed_append, countDestroyed_message, hcnt]
        omega
      · rw [destroyEntity_eq_of_nomem hfind hobjs]
        exact ⟨(World.removeEntity_others he2).1, (World.removeEntity_others he2).2.1,
          (World.removeEntity_others he2).2.2.1, (World.removeEntity_others he2).2.2.2,
          hcnt _⟩

/-- The bundle of facts about `voxOnHit` that the bullet loop needs:
registry well-formedness survives, the destruction budget never grows, no
`damaged` events are emitted, and entities other than the hit one are left
alone. -/
theorem voxOnHit_props (P : BulletParams) (st : GState) (x : Nat) (pos : Vec3)
    (dmg : ℚ) (hwf : WFReg st.registry) :
    WFReg (voxOnHit P st x pos dmg).1.registry ∧
    (∀ e2, destroyBudget (voxOnHit P st x pos dmg).1 e2 ≤ destroyBudget st e2) ∧
    (∀ e2, countDamaged (voxOnHit P st x pos dmg).1.events e2 =
      countDamaged st.events e2) ∧
    (∀ e2, e2 ≠ x →
      (voxOnHit P st x pos dmg).1.world.health.find e2 = st.world.health.find e2 ∧
      (voxOnHit P st x pos dmg).1.world.transform.find e2 = st.world.transform.find e2 ∧
      (voxOnHit P st x pos dmg).1.world.objectMeta.find e2 = st.world.objectMeta.find e2 ∧
      (e2 ∈ (voxOnHit P st x pos dmg).1.world.entities ↔ e2 ∈ st.world.entities) ∧
      countDestroyed (voxOnHit P st x pos dmg).1.events e2 =
        countDestroyed st.events e2) := by
  unfold voxOnHit
  cases hfind : st.registry.find x with
  | none =>
      dsimp only
      exact ⟨hwf, fun _ => le_refl _, fun _ => rfl, fun e2 _ =>
        ⟨rfl, rfl, rfl, Iff.rfl, rfl⟩⟩
  | some obj =>
      dsimp only
      cases hvox : obj.vox with
      | none =>
          dsimp only
          exact ⟨hwf, fun _ => le_refl _, fun _ => rfl, fun e2 _ =>
            ⟨rfl, rfl, rfl, Iff.rfl, rfl⟩⟩
      | some vox =>
          dsimp only
          by_cases hfe : vox.filled = []
          · rw [if_pos hfe]
            exact ⟨hwf, fun _ => le_refl _, fun _ => rfl, fun e2 _ =>
              ⟨rfl, rfl, rfl, Iff.rfl, rfl⟩⟩
          · rw [if_neg hfe]
            cases hcell : P.worldToCell x pos with
            | none =>
                dsimp only
                exact ⟨hwf, fun _ => le_refl _, fun _ => rfl, fun e2 _ =>
                  ⟨rfl, rfl, rfl, Iff.rfl, rfl⟩⟩
            | some c =>
                dsimp only
                set tr := voxQuotaN dmg
                  (match st.world.getHealth x with
                    | some h => h.maxHp
                    | none => 1)
                  (match vox.initialCount with
                    | some n => n
                    | none => vox.filled.length) with htr
                set rr := removeNear vox.filled c.1 c.2.1 c.2.2 tr with hrr
                by_cases hrem : rr.1 = []
                · rw [if_pos hrem]
                  exact ⟨hwf, fun _ => le_refl _, fun _ => rfl, fun e2 _ =>
                    ⟨rfl, rfl, rfl, Iff.rfl, rfl⟩⟩
                · rw [if_neg hrem]
                  set obj2 : Obj3D := { obj with vox := some { vox with
                    filled := rr.2
                    resource := vox.resource.filter (fun kk => kk ∉ rr.1) } } with hobj2
                  have htag2 : obj2.entityId = some x := hwf x obj hfind
                  set st1 : GState := { st with
                    registry := st.registry.setKey x obj2
                    rebuildQueue :=
                      if x ∈ st.rebuildQueue then st.rebuildQueue
                      else st.rebuildQueue ++ [x] } with hst1
                  have hwf1 : WFReg st1.registry := hwf.setKey htag2
                  have hbud1 : ∀ e2, destroyBudget st1 e2 = destroyBudget st e2 := by
                    intro e2
                    unfold destroyBudget regBit
                    by_cases he : e2 = x
                    · subst he
                      simp only [hst1, Table.find_setKey_self, hfind]
                    · simp only [hst1, Table.find_setKey_ne _ _ _ _ he]
                  by_cases hempty : rr.2 = []
                  · rw [if_pos hempty]
                    set st2 : GState := { st1 with world := { st1.world with
                      health := match st1.world.getHealth x with
                        | some h => st1.world.health.setKey x { h with hp := 0 }
                        | none => st1.world.health } } with hst2
                    have hwf2 : WFReg st2.registry := hwf1
                    have hbud2 : ∀ e2, destroyBudget st2 e2 = destroyBudget st1 e2 :=
                      fun e2 => rfl
                    refine ⟨destroyObjectEntity_wf st2 x hwf2, ?_, ?_, ?_⟩
                    · intro e2
                      calc destroyBudget (destroyObjectEntity st2 x) e2 ≤
                            destroyBudget st2 e2 := destroyObjectEntity_budget st2 x hwf2 e2
                        _ = destroyBudget st e2 := by rw [hbud2, hbud1]
                    · intro e2
                      rw [destroyObjectEntity_damaged st2 x hwf2]
                    · intro e2 he2
                      have hd := destroyObjectEntity_others st2 x hwf2 e2 he2
                      have hh2 : st2.world.health.find e2 = st.world.health.find e2 := by
                        simp only [hst2]
                        cases hgh : st1.world.getHealth x with
                        | none => rfl
                        | some h => exact Table.find_setKey_ne _ _ _ _ he2
                      refine ⟨?_, ?_, ?_, ?_, ?_⟩
                      · rw [hd.1, hh2]
                      · rw [hd.2.1]
                      · rw [hd.2.2.1]
                      · rw [hd.2.2.2.1]
                      · rw [hd.2.2.2.2]
                  · rw [if_neg hempty]
                    refine ⟨hwf1, fun e2 => le_of_eq (hbud1 e2), fun e2 => rfl, ?_⟩
                    intro e2 _
                    exact ⟨rfl, rfl, rfl, Iff.rfl, rfl⟩

theorem countDamaged_events_congr {s1 s2 : GState} (h : s2.events = s1.events) :
    ∀ e, countDamaged s2.events e = countDamaged s1.events e := by
  intro e
  rw [h]

theorem checkEntity_props (P : BulletParams) (st : GState) (b : Bullet) (x : Nat)
    (st2 : GState) (hwf : WFReg st.registry)
    (h : checkEntity P st b x = some st2) :
    WFReg st2.registry ∧
    (∀ e2, destroyBudget st2 e2 ≤ destroyBudget st e2) ∧
    (∀ e2, countDamaged st2.events e2 =
      countDamaged st.events e2 + (if x = e2 then 1 else 0)) ∧
    (∀ e2, e2 ≠ x →
      st2.world.health.find e2 = st.world.health.find e2 ∧
      st2.world.transform.find e2 = st.world.transform.find e2 ∧
      st2.world.objectMeta.find e2 = st.world.objectMeta.find e2 ∧
      (e2 ∈ st2.world.entities ↔ e2 ∈ st.world.entities) ∧
      countDestroyed st2.events e2 = countDestroyed st.events e2) := by
  unfold checkEntity at h
  cases hft : st.world.transform.find x with
  | none =>
      rw [hft] at h
      simp at h
  | some t =>
      rw [hft] at h
      dsimp only at h
      cases hreg : st.registry.find x with
      | none =>
          rw [hreg] at h
          simp at h
      | some obj =>
          rw [hreg] at h
          dsimp only at h
          split at h
          · simp at h
          · split at h
            · simp at h
            · have hst2 := Option.some.inj h
              subst hst2
              set sA : GState := { st with
                world := (st.world.damage x P.weaponPower).1
                events := st.events ++ [GEvent.damaged x] } with hsA
              set sB : GState := (voxOnHit P sA x b.pos P.weaponPower).1 with hsB
              have hwfA : WFReg sA.registry := hwf
              obtain ⟨hwfB, hbudB, hdmgB, hothB⟩ :=
                voxOnHit_props P sA x b.pos P.weaponPower hwfA
              have hbudA : ∀ e2, destroyBudget sA e2 = destroyBudget st e2 := by
                intro e2
                unfold destroyBudget regBit
                have he : sA.events = st.events ++ [GEvent.damaged x] := rfl
                have hr : sA.registry = st.registry := rfl
                rw [he, hr, countDestroyed_append, countDestroyed_damaged]
                omega
              have hdmgA : ∀ e2, countDamaged sA.events e2 =
                  countDamaged st.events e2 + (if x = e2 then 1 else 0) := by
                intro e2
                have he : sA.events = st.events ++ [GEvent.damaged x] := rfl
                rw [he, countDamaged_append, countDamaged_damaged]
              have hothA : ∀ e2, e2 ≠ x →
                  sA.world.health.find e2 = st.world.health.find e2 ∧
                  sA.world.transform.find e2 = st.world.transform.find e2 ∧
                  sA.world.objectMeta.find e2 = st.world.objectMeta.find e2 ∧
                  (e2 ∈ sA.world.entities ↔ e2 ∈ st.world.entities) ∧
                  countDestroyed sA.events e2 = countDestroyed st.events e2 := by
                intro e2 he2
                have hd := @World.damage_others st.world x P.weaponPower e2 he2
                have he : sA.events = st.events ++ [GEvent.damaged x] := rfl
                refine ⟨hd.1, by rw [hd.2.1], by rw [hd.2.2.1], by rw [hd.2.2.2], ?_⟩
                rw [he, countDestroyed_append, countDestroyed_damaged]
                omega
              have hbud2 : ∀ e2, destroyBudget sB e2 ≤ destroyBudget st e2 := by
                intro e2
                exact le_trans (hbudB e2) (le_of_eq (hbudA e2))
              have hdmg2 : ∀ e2, countDamaged sB.events e2 =
                  countDamaged st.events e2 + (if x = e2 then 1 else 0) := by
                intro e2
                rw [hdmgB e2, hdmgA e2]
              have hoth2 : ∀ e2, e2 ≠ x →
                  sB.world.health.find e2 = st.world.health.find e2 ∧
                  sB.world.transform.find e2 = st.world.transform.find e2 ∧
                  sB.world.objectMeta.find e2 = st.world.objectMeta.find e2 ∧
                  (e2 ∈ sB.world.entities ↔ e2 ∈ st.world.entities) ∧
                  countDestroyed sB.events e2 = countDestroyed st.events e2 := by
                intro e2 he2
                obtain ⟨b1, b2, b3, b4, b5⟩ := hothB e2 he2
                obtain ⟨a1, a2, a3, a4, a5⟩ := hothA e2 he2
                exact ⟨by rw [b1, a1], by rw [b2, a2], by rw [b3, a3],
                  b4.trans a4, by rw [b5, a5]⟩
              set sT : GState := { sB with currentTarget := some x } with hsT
              have hwfT : WFReg sT.registry := hwfB
              have hbudT : ∀ e2, destroyBudget sT e2 ≤ destroyBudget st e2 := hbud2
              have hdmgT : ∀ e2, countDamaged sT.events e2 =
                  countDamaged st.events e2 + (if x = e2 then 1 else 0) := hdmg2
              have hothT : ∀ e2, e2 ≠ x →
                  sT.world.health.find e2 = st.world.health.find e2 ∧
                  sT.world.transform.find e2 = st.world.transform.find e2 ∧
                  sT.world.objectMeta.find e2 = st.world.objectMeta.find e2 ∧
                  (e2 ∈ sT.world.entities ↔ e2 ∈ st.world.entities) ∧
                  countDestroyed sT.events e2 = countDestroyed st.events e2 := hoth2
              have hdestroy : ∀ (s : GState), WFReg s.registry →
                  (∀ e2, destroyBudget s e2 ≤ destroyBudget st e2) →
                  (∀ e2, countDamaged s.events e2 =
                    countDamaged st.events e2 + (if x = e2 then 1 else 0)) →
                  (∀ e2, e2 ≠ x →
                    s.world.health.find e2 = st.world.health.find e2 ∧
                    s.world.transform.find e2 = st.world.transform.find e2 ∧
                    s.world.objectMeta.find e2 = st.world.objectMeta.find e2 ∧
                    (e2 ∈ s.world.entities ↔ e2 ∈ st.world.entities) ∧
                    countDestroyed s.events e2 = countDestroyed st.events e2) →
                  WFReg (destroyObjectEntity s x).registry ∧
                  (∀ e2, destroyBudget (destroyObjectEntity s x) e2 ≤ destroyBudget st e2) ∧
                  (∀ e2, countDamaged (destroyObjectEntity s x).events e2 =
                    countDamaged st.events e2 + (if x = e2 then 1 else 0)) ∧
                  (∀ e2, e2 ≠ x →
                    (destroyObjectEntity s x).world.health.find e2 =
                      st.world.health.find e2 ∧
                    (destroyObjectEntity s x).world.transform.find e2 =
                      st.world.transform.find e2 ∧
                    (destroyObjectEntity s x).world.objectMeta.find e2 =
                      st.world.objectMeta.find e2 ∧
                    (e2 ∈ (destroyObjectEntity s x).world.entities ↔
                      e2 ∈ st.world.entities) ∧
                    countDestroyed (destroyObjectEntity s x).events e2 =
                      countDestroyed st.events e2) := by
                intro s hwfs hbs hds hos
                refine ⟨destroyObjectEntity_wf s x hwfs, ?_, ?_, ?_⟩
                · intro e2
                  exact le_trans (destroyObjectEntity_budget s x hwfs e2) (hbs e2)
                · intro e2
                  rw [destroyObjectEntity_damaged s x hwfs]
                  exact hds e2
                · intro e2 he2
                  obtain ⟨d1, d2, d3, d4, d5⟩ := destroyObjectEntity_others s x hwfs e2 he2
                  obtain ⟨c1, c2, c3, c4, c5⟩ := hos e2 he2
                  exact ⟨by rw [d1]; exact c1, by rw [d2]; exact c2,
                    by rw [d3]; exact c3, d4.trans c4, by rw [d5]; exact c5⟩
              cases hd2 : (st.world.damage x P.weaponPower).2 with
              | none =>
                  dsimp only
                  by_cases hpl : obj.otype = "planet"
                  · rw [if_pos hpl]
                    exact ⟨hwfT, hbudT, hdmgT, hothT⟩
                  · rw [if_neg hpl]
                    exact ⟨hwfB, hbud2, hdmg2, hoth2⟩
              | some hrec =>
                  dsimp only
                  by_cases hpl : obj.otype = "planet"
                  · rw [if_pos hpl]
                    split
                    all_goals split
                    all_goals first
                      | exact hdestroy sT hwfT hbudT hdmgT hothT
                      | exact ⟨hwfT, hbudT, hdmgT, hothT⟩
                  · rw [if_neg hpl]
                    split
                    all_goals split
                    all_goals first
                      | exact hdestroy sB hwfB hbud2 hdmg2 hoth2
                      | exact ⟨hwfB, hbud2, hdmg2, hoth2⟩

theorem tryHit_props (P : BulletParams) (st : GState) (b : Bullet)
    (cands : List Nat) (hwf : WFReg st.registry) :
    ((tryHit P st b cands).2 ≠ none → tryHit P st b cands = (st, some b)) ∧
    WFReg (tryHit P st b cands).1.registry ∧
    (∀ e2, destroyBudget (tryHit P st b cands).1 e2 ≤ destroyBudget st e2) ∧
    (∀ e2, countDamaged (tryHit P st b cands).1.events e2 ≤
      countDamaged st.events e2 + 1) := by
  induction cands with
  | nil =>
      exact ⟨fun _ => rfl, hwf, fun _ => le_refl _, fun _ => Nat.le_succ _⟩
  | cons e rest ih =>
      unfold tryHit
      cases hce : checkEntity P st b e with
      | none =>
          dsimp only
          exact ih
      | some st2 =>
          dsimp only
          obtain ⟨hwf2, hbud2, hdmg2, _⟩ := checkEntity_props P st b e st2 hwf hce
          refine ⟨fun hne => absurd rfl hne, hwf2, hbud2, ?_⟩
          intro e2
          rw [hdmg2 e2]
          by_cases he : e = e2 <;> simp [he]

theorem stepBullet_props (P : BulletParams) (lid : Option Nat) (lty : Option String)
    (st : GState) (b : Bullet) (hwf : WFReg st.registry) :
    (∀ b2, (stepBullet P lid lty st b).2 = some b2 → (stepBullet P lid lty st b).1 = st) ∧
    WFReg (stepBullet P lid lty st b).1.registry ∧
    (∀ e2, destroyBudget (stepBullet P lid lty st b).1 e2 ≤ destroyBudget st e2) ∧
    (∀ e2, countDamaged (stepBullet P lid lty st b).1.events e2 ≤
      countDamaged st.events e2 + 1) := by
  unfold stepBullet
  dsimp only
  set b1 : Bullet := { pos := { x := b.pos.x + b.vel.x * P.k
                                y := b.pos.y + b.vel.y * P.k
                                z := b.pos.z + b.vel.z * P.k }
                       vel := b.vel, life := b.life - 1 } with hb1
  by_cases hlife : b1.life ≤ 0
  · rw [if_pos hlife]
    exact ⟨fun b2 h => absurd h (by simp), hwf, fun _ => le_refl _, fun _ => Nat.le_succ _⟩
  · rw [if_neg hlife]
    cases lid with
    | none =>
        dsimp only
        obtain ⟨h1, h2, h3, h4⟩ := tryHit_props P st b1 st.world.objectMeta.keys hwf
        refine ⟨?_, h2, h3, h4⟩
        intro b2 hb2
        have := h1 (by rw [hb2]; simp)
        rw [this]
    | some l =>
        dsimp only
        by_cases hty : lty = some "planet"
        · rw [if_pos hty]
          cases hce : checkEntity P st b1 l with
          | none =>
              dsimp only
              exact ⟨fun _ _ => rfl, hwf, fun _ => le_refl _, fun _ => Nat.le_succ _⟩
          | some st2 =>
              dsimp only
              obtain ⟨hwf2, hbud2, hdmg2, _⟩ := checkEntity_props P st b1 l st2 hwf hce
              refine ⟨fun b2 h => absurd h (by simp), hwf2, hbud2, ?_⟩
              intro e2
              rw [hdmg2 e2]
              by_cases he : l = e2 <;> simp [he]
        · rw [if_neg hty]
          obtain ⟨h1, h2, h3, h4⟩ := tryHit_props P st b1 st.world.objectMeta.keys hwf
          refine ⟨?_, h2, h3, h4⟩
          intro b2 hb2
          have := h1 (by rw [hb2]; simp)
          rw [this]

theorem processBullets_props (P : BulletParams) (lid : Option Nat) (lty : Option String) :
    ∀ (bullets : List Bullet) (st : GState), WFReg st.registry →
      WFReg (processBullets P lid lty st bullets).1.registry ∧
      (∀ e2, destroyBudget (processBullets P lid lty st bullets).1 e2 ≤
        destroyBudget st e2) := by
  intro bullets
  induction bullets with
  | nil => intro st hwf; exact ⟨hwf, fun _ => le_refl _⟩
  | cons b rest ih =>
      intro st hwf
      unfold processBullets
      obtain ⟨hwfr, hbudr⟩ := ih st hwf
      obtain ⟨_, hwfs, hbuds, _⟩ :=
        stepBullet_props P lid lty (processBullets P lid lty st rest).1 b hwfr
      dsimp only
      exact ⟨hwfs, fun e2 => le_trans (hbuds e2) (hbudr e2)⟩

/-- C6.  In `updateBullets`: (a) per entity, at most one destruction
(explosion/spawn effects with render unbind and `removeEntity`) fires per
tick, no matter how many projectiles intersect it — once destroyed, the
entity is gone from the registry and the transform/objectMeta tables, so
later projectiles of the same tick cannot re-trigger it; (b) a projectile
that survives its step left the state untouched, so any damage implies the
projectile was consumed; (c) one projectile step damages any entity at most
once. -/
theorem projectile_hit_consumed_once (P : BulletParams) (st : GState)
    (hwf : WFReg st.registry) :
    (∀ e, countDestroyed (updateBullets P st).events e ≤
      countDestroyed st.events e + 1) ∧
    (∀ lid lty (st1 : GState) (b b2 : Bullet), WFReg st1.registry →
      (stepBullet P lid lty st1 b).2 = some b2 → (stepBullet P lid lty st1 b).1 = st1) ∧
    (∀ lid lty (st1 : GState) (b : Bullet) (e : Nat), WFReg st1.registry →
      countDamaged (stepBullet P lid lty st1 b).1.events e ≤
        countDamaged st1.events e + 1) := by
  refine ⟨?_, ?_, ?_⟩
  · intro e
    obtain ⟨_, hbud⟩ := processBullets_props P st.currentTarget
      (match st.currentTarget with
        | none => none
        | some lid => (st.world.objectMeta.find lid).map ObjectMeta.otype)
      st.bullets st hwf
    have h1 : countDestroyed (updateBullets P st).events e ≤
        destroyBudget (processBullets P st.currentTarget
          (match st.currentTarget with
            | none => none
            | some lid => (st.world.objectMeta.find lid).map ObjectMeta.otype)
          st st.bullets).1 e := by
      unfold updateBullets
      dsimp only
      unfold destroyBudget
      exact Nat.le_add_right _ _
    refine le_trans h1 (le_trans (hbud e) ?_)
    unfold destroyBudget regBit
    cases st.registry.find e
    · dsimp only
      omega
    · dsimp only
      omega
  · intro lid lty st1 b b2 hwf1 hb2
    exact (stepBullet_props P lid lty st1 b hwf1).1 b2 hb2
  · intro lid lty st1 b e hwf1
    exact (stepBullet_props P lid lty st1 b hwf1).2.2.2 e

/-- C6, witness at a concrete one-object, one-bullet state. -/
def bulletParamsW : BulletParams :=
  { k := 1, weaponPower := 5, worldToCell := fun _ _ => none }

theorem projectile_hit_consumed_once_witness :
    countDestroyed (updateBullets bulletParamsW regStateW).events 4 ≤
      countDestroyed regStateW.events 4 + 1 := by
  have hwf : WFReg regStateW.registry := by
    intro e obj h
    by_cases he : (4 : Nat) = e
    · subst he
      simp [regStateW, Table.find, lootStateFull] at h
      rw [← h]
    · simp [regStateW, Table.find, lootStateFull, he] at h
  exact (projectile_hit_consumed_once bulletParamsW regStateW hwf).1 4

/-! ## Claim C10 — a locked planet is the sole collision candidate -/

/-- Entities other than `x` that are live when the operation starts keep
their health, transform and objectMeta rows, their entity-set membership,
and receive no damage or destruction events.  The statement is restricted
to ids in `st0.world.entities` because a hit on the locked target also
*creates* entities: `onHit` feeds resource voxels to
`spawner.spawnVoxelImpact` and a destroying hit runs `spawnOnDestroyed`
(`spawnLoot`/`spawnVoxelExplosion`), both of which call `world.createLoot`
for brand-new ids (`World.createEntity` hands out `nextId`, which is never
a live id) and fill their transform/velocity/lootMotion rows.  Those
spawns touch only the fresh ids, never the ids live at entry, so they lie
outside this statement's domain; the embedding records a destroying spawn
as its `destroyed` event and elides the fresh rows. -/
def othersUntouched (x : Nat) (st1 st0 : GState) : Prop :=
  ∀ e2, e2 ≠ x → e2 ∈ st0.world.entities →
    st1.world.health.find e2 = st0.world.health.find e2 ∧
    st1.world.transform.find e2 = st0.world.transform.find e2 ∧
    st1.world.objectMeta.find e2 = st0.world.objectMeta.find e2 ∧
    (e2 ∈ st1.world.entities ↔ e2 ∈ st0.world.entities) ∧
    countDamaged st1.events e2 = countDamaged st0.events e2 ∧
    countDestroyed st1.events e2 = countDestroyed st0.events e2

theorem othersUntouched_refl (x : Nat) (st : GState) : othersUntouched x st st :=
  fun _ _ _ => ⟨rfl, rfl, rfl, Iff.rfl, rfl, rfl⟩

theorem othersUntouched_trans {x : Nat} {s1 s2 s3 : GState}
    (h12 : othersUntouched x s2 s1) (h23 : othersUntouched x s3 s2) :
    othersUntouched x s3 s1 := by
  intro e2 he2 hmem
  obtain ⟨a1, a2, a3, a4, a5, a6⟩ := h12 e2 he2 hmem
  obtain ⟨b1, b2, b3, b4, b5, b6⟩ := h23 e2 he2 (a4.mpr hmem)
  exact ⟨b1.trans a1, b2.trans a2, b3.trans a3, b4.trans a4, b5.trans a5, b6.trans a6⟩

theorem checkEntity_others (P : BulletParams) (st : GState) (b : Bullet) (x : Nat)
    (st2 : GState) (hwf : WFReg st.registry) (h : checkEntity P st b x = some st2) :
    othersUntouched x st2 st := by
  obtain ⟨_, _, hdmg, hoth⟩ := checkEntity_props P st b x st2 hwf h
  intro e2 he2 _
  obtain ⟨c1, c2, c3, c4, c5⟩ := hoth e2 he2
  refine ⟨c1, c2, c3, c4, ?_, c5⟩
  have := hdmg e2
  rw [if_neg (fun hh => he2 hh.symm)] at this
  omega

theorem stepBullet_planet_others (P : BulletParams) (l : Nat) (st : GState)
    (b : Bullet) (hwf : WFReg st.registry) :
    othersUntouched l (stepBullet P (some l) (some "planet") st b).1 st := by
  unfold stepBullet
  dsimp only
  set b1 : Bullet := { pos := { x := b.pos.x + b.vel.x * P.k
                                y := b.pos.y + b.vel.y * P.k
                                z := b.pos.z + b.vel.z * P.k }
                       vel := b.vel, life := b.life - 1 } with hb1
  by_cases hlife : b1.life ≤ 0
  · rw [if_pos hlife]
    exact othersUntouched_refl l st
  · rw [if_neg hlife]
    rw [if_pos rfl]
    cases hce : checkEntity P st b1 l with
    | none =>
        dsimp only
        exact othersUntouched_refl l st
    | some st2 =>
        dsimp only
        exact checkEntity_others P st b1 l st2 hwf hce

theorem processBullets_planet_others (P : BulletParams) (l : Nat) :
    ∀ (bullets : List Bullet) (st : GState), WFReg st.registry →
      othersUntouched l
        (processBullets P (some l) (some "planet") st bullets).1 st := by
  intro bullets
  induction bullets with
  | nil => intro st _; exact othersUntouched_refl l st
  | cons b rest ih =>
      intro st hwf
      unfold processBullets
      dsimp only
      have hwfr := (processBullets_props P (some l) (some "planet") rest st hwf).1
      exact othersUntouched_trans (ih st hwf)
        (stepBullet_planet_others P l
          (processBullets P (some l) (some "planet") st rest).1 b hwfr)

/-- C10.  When the current lock targets an entity whose `objectMeta` type is
`planet`, `updateBullets` collision-tests every projectile against that
entity alone: every other entity live at the start of the tick keeps its
health, transform and objectMeta rows and its entity-set membership, and
receives no damage or destruction events during the tick — projectiles
pass through all other objects.  The statement quantifies over the ids
live at entry (see `othersUntouched`): ids the tick newly creates — the
loot spawned by `spawnVoxelImpact`/`spawnOnDestroyed` on a planet hit —
are fresh `nextId`s, not pre-existing objects a projectile could have
collided with. -/
theorem locked_planet_sole_candidate (P : BulletParams) (st : GState) (e : Nat)
    (hwf : WFReg st.registry)
    (hlock : st.currentTarget = some e)
    (htype : (st.world.objectMeta.find e).map ObjectMeta.otype = some "planet") :
    othersUntouched e (updateBullets P st) st := by
  have hU : updateBullets P st =
      { (processBullets P (some e) (some "planet") st st.bullets).1 with
        bullets := (processBullets P (some e) (some "planet") st st.bullets).2 } := by
    unfold updateBullets
    dsimp only
    rw [hlock]
    dsimp only
    rw [htype]
  rw [hU]
  intro e2 he2 hmem
  exact processBullets_planet_others P e st.bullets st hwf e2 he2 hmem

/-- C10, witness at a concrete locked-planet state. -/
def planetLockWorld : World :=
  { World.empty with
    entities := [4, 5]
    objectMeta := [(4, { otype := "planet", lootValue := 0 }),
                   (5, { otype := "asteroid", lootValue := 1 })] }

def planetLockState : GState :=
  { lootStateFull with world := planetLockWorld, currentTarget := some 4 }

theorem locked_planet_sole_candidate_witness :
    countDamaged (updateBullets bulletParamsW planetLockState).events 5 =
      countDamaged planetLockState.events 5 := by
  have hwf : WFReg planetLockState.registry := by
    intro e obj h
    simp [planetLockState, lootStateFull, Table.find] at h
  have h := locked_planet_sole_candidate bulletParamsW planetLockState 4 hwf
    (by rfl) (by rfl) 5 (by norm_num) (by decide)
  exact h.2.2.2.2.1

/-! ## Claim C9 — the stale lock survives to the end of the destroying tick -/

def c9obj : Obj3D :=
  { entityId := some 2, otype := "asteroid", geoRadius := 1, vox := none }

def c9world : World :=
  { World.empty with
    entities := [1, 2]
    objectMeta := [(2, { otype := "asteroid", lootValue := 0 })]
    health := [(2, { hp := 1, maxHp := 10 })]
    transform := [(1, lockT), (2, lockT)] }

def c9bullet : Bullet :=
  { pos := { x := 0, y := 0, z := 0 }, vel := { x := 0, y := 0, z := 0 }, life := 5 }

def c9state : GState :=
  { world := c9world
    rotationQuat := [(1, lockQ)]
    registry := [(2, c9obj)]
    objects := [2]
    bullets := [c9bullet]
    currentTarget := some 2
    lockSuppressUntil := 0
    playerEntityId := some 1
    cameraPresent := true
    stats := { storage := 0, maxStorage := 8, lootScore := 0 }
    rebuildQueue := [], events := [] }

/-- C9, counterexample.  One full `CombatSystem.update` tick on a state
whose locked target (entity 2) is destroyed by a bullet during that same
tick: at the end of the tick the entity is gone from the world and its
destruction event has fired, yet `currentTargetEntityId` still holds the
destroyed entity — the release is deferred to a later tick. -/
theorem stale_lock_survives_tick :
    (2 : Nat) ∉ (combatUpdate lockWParams bulletParamsW c9state).world.entities ∧
    countDestroyed (combatUpdate lockWParams bulletParamsW c9state).events 2 = 1 ∧
    (combatUpdate lockWParams bulletParamsW c9state).currentTarget = some 2 := by
  have hsup : ¬ (c9state.lockSuppressUntil > lockWParams.now) := by
    norm_num [c9state, lockWParams]
  have hscr : isOnScreen lockWParams.camProj lockT = true := by
    norm_num [isOnScreen, lockWParams, lockProjCx, screenMargin]
  have hscr2 : ¬ (isOnScreen lockWParams.camProj lockT = false) := by
    rw [hscr]; simp
  have hdist : ¬ (centerDistSq (lockWParams.camProj lockT) >
      keepCenterMax * keepCenterMax) := by
    norm_num [centerDistSq, lockWParams, lockProjCx, keepCenterMax]
  have h1 : updateTargetLock lockWParams c9state = c9state := by
    simp only [updateTargetLock,
      (show c9state.playerEntityId = some 1 from rfl),
      (show c9state.cameraPresent = true from rfl),
      (show c9state.world.transform.find 1 = some lockT from rfl),
      (show c9state.rotationQuat.find 1 = some lockQ from rfl),
      (show c9state.currentTarget = some 2 from rfl),
      (show c9state.world.transform.find 2 = some lockT from rfl)]
    rw [if_neg (show ¬ (true = false) by simp), if_neg hsup, if_neg hscr2,
      if_neg hdist]
  have h2 : combatUpdate lockWParams bulletParamsW c9state
      = updateBullets bulletParamsW c9state := by
    unfold combatUpdate
    rw [h1]
  rw [h2]
  have hplanets : ¬ (("asteroid" : String) = "planet") := by decide
  norm_num [updateBullets, processBullets, stepBullet, tryHit, checkEntity,
    voxOnHit, destroyObjectEntity, destroyObject, World.damage, World.getHealth,
    World.removeEntity, Table.find, Table.setKey, Table.eraseKey, Table.keys,
    countDestroyed, c9state, c9world, c9obj, c9bullet, lockT, lockQ,
    bulletParamsW, List.erase, List.countP_cons, List.countP_nil, max_le_iff,
    hplanets]

end WreckSpace
